import Mathlib

/-!
Verification of the AppFolio integration client (`appfolio_integration.py`).

The development shallowly embeds the parts of the source with a precise
contract:

* the JSON:API denormalizer `denormalize_response` (source lines 223-307),
  together with its helpers `resolve_relationship` and `process_data_item`;
* the manual redirect loop `_handle_manual_redirect` (lines 99-144);
* the response handler `_handle_response` (lines 146-180);
* the work-order status table `_get_state_code` (lines 182-200).

Python values flowing through the denormalizer are dynamic JSON-shaped
data, embedded as the inductive type `JSON`.  Python dictionaries are
embedded as association lists whose denotation is "last binding wins"
(`lookupLast`): writing `d[k] = v` appends a binding, and `{**a, **b}`
is `a ++ b`, which gives exactly Python's key-presence and lookup
semantics.  Code that can raise (KeyError / TypeError / AttributeError)
is embedded in `Except String`.
-/

/-- Dynamic JSON-shaped Python value (None, bool, int, str, list, dict). -/
inductive JSON where
  | null : JSON
  | boolean : Bool → JSON
  | num : Int → JSON
  | str : String → JSON
  | arr : List JSON → JSON
  | obj : List (String × JSON) → JSON
deriving Repr

/-- A Python dict with JSON values, as an association list; later bindings
overwrite earlier ones (see `lookupLast`). -/
abbrev Dict := List (String × JSON)

/-- Python truthiness of a JSON value: `None`, `False`, `0`, `""`, `[]`, `{}`
are falsy, everything else is truthy. -/
def JSON.truthy : JSON → Bool
  | .null => false
  | .boolean b => b
  | .num n => n != 0
  | .str s => s != ""
  | .arr xs => !xs.isEmpty
  | .obj kvs => !kvs.isEmpty

/-- Dictionary lookup: the value of the LAST binding of `k`, mirroring the
fact that later Python dict writes overwrite earlier ones. -/
def lookupLast (k : String) : Dict → Option JSON
  | [] => none
  | (k', v) :: rest =>
    match lookupLast k rest with
    | some w => some w
    | none => if k' == k then some v else none

/-- Key presence in an embedded Python dict. -/
def hasKeyD (d : Dict) (k : String) : Bool :=
  (lookupLast k d).isSome

/-- Keys in first-occurrence order with duplicates removed (`seen` is the
accumulator of keys already emitted): the key order of a Python dict. -/
def dedupKeysAux (seen : List String) : List String → List String
  | [] => []
  | k :: rest =>
    if seen.contains k then dedupKeysAux seen rest
    else k :: dedupKeysAux (k :: seen) rest

/-- The keys of a Python dict (first-occurrence order, no duplicates). -/
def pyKeys (kvs : Dict) : List String :=
  dedupKeysAux [] (kvs.map Prod.fst)

/-- `dict.items()`: each key once, in first-occurrence order, paired with
its (last-written) value. -/
def pyItems (kvs : Dict) : List (String × JSON) :=
  (pyKeys kvs).filterMap (fun k => (lookupLast k kvs).map (fun v => (k, v)))

/-- Python iteration over a value: lists yield elements, strings yield
one-character strings, dicts yield their keys; other values raise
`TypeError`. -/
def pyIter : JSON → Except String (List JSON)
  | .arr xs => .ok xs
  | .str s => .ok (s.data.map (fun c => .str (String.mk [c])))
  | .obj kvs => .ok ((pyKeys kvs).map .str)
  | _ => .error "TypeError: object is not iterable"

/-- Python subscript `x[k]` with a string key: KeyError when the key is
absent from a dict, TypeError when `x` is not a dict. -/
def pySubscript (j : JSON) (k : String) : Except String JSON :=
  match j with
  | .obj kvs =>
    match lookupLast k kvs with
    | some v => .ok v
    | none => .error ("KeyError: " ++ k)
  | _ => .error "TypeError: value is not subscriptable"

/-- `kvs[k]` on a dict already known to be a dict. -/
def getKey (kvs : Dict) (k : String) : Except String JSON :=
  match lookupLast k kvs with
  | some v => .ok v
  | none => .error ("KeyError: " ++ k)

/-- `d.get(k, {})` whose result is then used as a mapping (unpacked with
`**` or iterated with `.items()`): absent key gives the empty dict, a
non-dict value raises. -/
def getDictDefault (kvs : Dict) (k : String) : Except String Dict :=
  match lookupLast k kvs with
  | none => .ok []
  | some (.obj d) => .ok d
  | some _ => .error "TypeError: value is not a mapping"

/-- `"data" in x`: key test on dicts, membership on lists, substring test
on strings; TypeError otherwise.  Only string-membership of the literal
key is needed, so list membership checks for that string. -/
def pyContainsKey (j : JSON) (k : String) : Except String Bool :=
  match j with
  | .obj kvs => .ok (kvs.any (fun p => p.1 == k))
  | .arr xs => .ok (xs.any (fun x => match x with | .str s => s == k | _ => false))
  | .str s => .ok ((s.splitOn k).length != 1)
  | _ => .error "TypeError: argument is not iterable"

/-- A value usable as (a component of) a Python dict key: lists and dicts
are unhashable. -/
def hashable : JSON → Bool
  | .arr _ => false
  | .obj _ => false
  | _ => true

/-- The numeric value Python uses for `==` on bools and ints
(`True == 1`). -/
def pyNumVal : JSON → Option Int
  | .boolean b => some (if b then 1 else 0)
  | .num n => some n
  | _ => none

/-- Python `==` on hashable scalar values. -/
def pyScalarEq (a b : JSON) : Bool :=
  match pyNumVal a, pyNumVal b with
  | some x, some y => x == y
  | _, _ =>
    match a, b with
    | .str s, .str t => s == t
    | .null, .null => true
    | _, _ => false

/-- Equality of `(type, id)` dict keys. -/
def pyKeyEq (a b : JSON × JSON) : Bool :=
  pyScalarEq a.1 b.1 && pyScalarEq a.2 b.2

/-- The `included_lookup` table: insertion-ordered `(type, id) ↦ resource`
entries. -/
abbrev Lookup := List ((JSON × JSON) × Dict)

/-- `included_lookup.get(key)`: the LAST entry whose key equals `key`
(later inserts win), `None` when there is none. -/
def lookupGet : Lookup → (JSON × JSON) → Option Dict
  | [], _ => none
  | (k, d) :: rest, key =>
    match lookupGet rest key with
    | some r => some r
    | none => if pyKeyEq k key then some d else none

/-- `included_lookup.get(key)` where the key components may be unhashable
(Python raises TypeError before looking anything up). -/
def lookupGetE (lk : Lookup) (key : JSON × JSON) : Except String (Option Dict) :=
  if hashable key.1 && hashable key.2 then .ok (lookupGet lk key)
  else .error "TypeError: unhashable type"

/-- Effectful map over a list, stopping at the first raised error: the
image of a Python list comprehension whose body may raise. -/
def mapME (f : α → Except String β) : List α → Except String (List β)
  | [] => .ok []
  | x :: xs =>
    match f x with
    | .error e => .error e
    | .ok y =>
      match mapME f xs with
      | .error e => .error e
      | .ok ys => .ok (y :: ys)

/-- Source lines 236-239: build `included_lookup` from the `included`
items.  Each item must be a dict carrying `type` and `id` (KeyError
otherwise), and the `(type, id)` pair must be hashable. -/
def buildLookup : List JSON → Except String Lookup
  | [] => .ok []
  | item :: rest =>
    match item with
    | .obj kvs =>
      match getKey kvs "type" with
      | .error e => .error e
      | .ok t =>
        match getKey kvs "id" with
        | .error e => .error e
        | .ok i =>
          if hashable t && hashable i then
            match buildLookup rest with
            | .error e => .error e
            | .ok lk => .ok (((t, i), kvs) :: lk)
          else .error "TypeError: unhashable type"
    | _ => .error "TypeError: value is not subscriptable"

/-- What `resolve_relationship` can return besides `None`: a single
resource dict from the lookup, or (for a list-valued relationship) the
list of per-reference lookup results, unresolved ones as `none`. -/
inductive Resolved where
  | single (r : Dict)
  | many (rs : List (Option Dict))

/-- Python truthiness of a `resolve_relationship` result: a dict is truthy
iff non-empty, a list iff non-empty (even a list of only `None`). -/
def Resolved.truthy : Resolved → Bool
  | .single r => !r.isEmpty
  | .many rs => !rs.isEmpty

/-- Source lines 241-257, `resolve_relationship`: `None` for a falsy
relationship, a relationship without a `data` key, or falsy `data`;
otherwise resolve the single reference (or each reference of a list)
against `included_lookup`. -/
def resolve_relationship (lk : Lookup) (relationship : JSON) :
    Except String (Option Resolved) :=
  if !relationship.truthy then .ok none
  else
    match pyContainsKey relationship "data" with
    | .error e => .error e
    | .ok c =>
      if !c then .ok none
      else
        match pySubscript relationship "data" with
        | .error e => .error e
        | .ok relData =>
          if !relData.truthy then .ok none
          else
            match relData with
            | .arr items =>
              match mapME (fun it =>
                  match pySubscript it "type" with
                  | .error e => .error e
                  | .ok t =>
                    match pySubscript it "id" with
                    | .error e => .error e
                    | .ok i => lookupGetE lk (t, i)) items with
              | .error e => .error e
              | .ok rs => .ok (some (.many rs))
            | d =>
              match pySubscript d "type" with
              | .error e => .error e
              | .ok t =>
                match pySubscript d "id" with
                | .error e => .error e
                | .ok i =>
                  match lookupGetE lk (t, i) with
                  | .error e => .error e
                  | .ok r => .ok (r.map .single)

/-- The flattened form of a resolved resource:
`{**r.get("attributes", {}), "id": r["id"], "type": r["type"]}`
(source lines 277-283, 287-291 and 298-302). -/
def flattenResource (r : Dict) : Except String Dict :=
  match getDictDefault r "attributes" with
  | .error e => .error e
  | .ok attrs =>
    match getKey r "id" with
    | .error e => .error e
    | .ok idv =>
      match getKey r "type" with
      | .error e => .error e
      | .ok tyv => .ok (attrs ++ [("id", idv), ("type", tyv)])

/-- Python truthiness of one element of a resolved reference list
(the `if r` filter of line 283): `None` and the empty dict are dropped. -/
def optDictTruthy : Option Dict → Bool
  | none => false
  | some d => !d.isEmpty

/-- Source lines 295-302, one iteration of the nested-relationship loop:
the entry (if any) that
`result[f"{rel_name}_{nested_name}"] = {**nested_resolved.get("attributes", {}), ...}`
writes.  A truthy list-valued nested result makes the source call `.get`
on a list, an AttributeError. -/
def nestedEntry (lk : Lookup) (relName nestedName : String) (nestedRel : JSON) :
    Except String (List (String × JSON)) :=
  match resolve_relationship lk nestedRel with
  | .error e => .error e
  | .ok none => .ok []
  | .ok (some nr) =>
    if !nr.truthy then .ok []
    else
      match nr with
      | .single r2 =>
        match flattenResource r2 with
        | .error e => .error e
        | .ok f2 => .ok [(relName ++ "_" ++ nestedName, .obj f2)]
      | .many _ => .error "AttributeError: list object has no attribute get"

/-- Source lines 271-302, one iteration of the relationship loop of
`process_data_item`: the dict entries it appends to `result`, in write
order.  A resolved list relationship contributes
`result[rel_name] = [flattened truthy entries]`; a resolved single
relationship contributes `result[rel_name] = flattened target` followed
by one entry per resolving nested relationship of the target. -/
def relationshipEntries (lk : Lookup) (relName : String) (relData : JSON) :
    Except String (List (String × JSON)) :=
  match resolve_relationship lk relData with
  | .error e => .error e
  | .ok none => .ok []
  | .ok (some resolved) =>
    if !resolved.truthy then .ok []
    else
      match resolved with
      | .many rs =>
        match mapME flattenResource
            ((rs.filter optDictTruthy).filterMap (fun o => o)) with
        | .error e => .error e
        | .ok flats => .ok [(relName, .arr (flats.map .obj))]
      | .single r =>
        match flattenResource r with
        | .error e => .error e
        | .ok f =>
          match getDictDefault r "relationships" with
          | .error e => .error e
          | .ok nrels =>
            match mapME (fun p => nestedEntry lk relName p.1 p.2)
                (pyItems nrels) with
            | .error e => .error e
            | .ok nlists => .ok ((relName, .obj f) :: nlists.flatten)

/-- Source lines 259-304, `process_data_item`: seed the record with
`id` and `type`, overlay `attributes` then `links`, then append the
entries written by the relationship loop in iteration order. -/
def process_data_item (lk : Lookup) (item : JSON) : Except String Dict :=
  match item with
  | .obj kvs =>
    match getKey kvs "id" with
    | .error e => .error e
    | .ok idv =>
      match getKey kvs "type" with
      | .error e => .error e
      | .ok tyv =>
        match getDictDefault kvs "attributes" with
        | .error e => .error e
        | .ok attrs =>
          match getDictDefault kvs "links" with
          | .error e => .error e
          | .ok links =>
            match getDictDefault kvs "relationships" with
            | .error e => .error e
            | .ok rels =>
              match mapME (fun p => relationshipEntries lk p.1 p.2)
                  (pyItems rels) with
              | .error e => .error e
              | .ok entryLists =>
                .ok ((("id", idv) :: ("type", tyv) :: (attrs ++ links))
                      ++ entryLists.flatten)
  | _ => .error "TypeError: value is not subscriptable"

/-- Source lines 223-307, `denormalize_response`: build the included
lookup from `response_json.get("included", [])`, then process every item
of `response_json["data"]` (KeyError when `data` is absent) in order. -/
def denormalize_response (responseJson : Dict) : Except String (List Dict) :=
  match pyIter ((lookupLast "included" responseJson).getD (.arr [])) with
  | .error e => .error e
  | .ok includedItems =>
    match buildLookup includedItems with
    | .error e => .error e
    | .ok lk =>
      match lookupLast "data" responseJson with
      | none => .error "KeyError: data"
      | some dataVal =>
        match pyIter dataVal with
        | .error e => .error e
        | .ok dataItems => mapME (process_data_item lk) dataItems

/-- The worked example of the specification, as a sanity anchor: one work
order with a resolving single `vendor` relationship. -/
example :
    denormalize_response
      [("data", .arr [.obj [("type", .str "wo"), ("id", .str "1"),
        ("attributes", .obj [("status", .str "Open")]),
        ("relationships", .obj [("vendor", .obj [("data",
          .obj [("type", .str "v"), ("id", .str "9")])])])]]),
       ("included", .arr [.obj [("type", .str "v"), ("id", .str "9"),
        ("attributes", .obj [("name", .str "Acme")])]])] =
    .ok [[("id", .str "1"), ("type", .str "wo"), ("status", .str "Open"),
          ("vendor", .obj [("name", .str "Acme"), ("id", .str "9"),
                           ("type", .str "v")])]] := by
  rfl

/-!
HTTP side: response handler, manual redirect loop, state-code table.

The transport (`aiohttp`) is the external boundary: a response is
modelled by the fields the source reads (`status`, `reason`, the body
text, a rendering of the headers, and the `Location` header), and the
transport's `ok` predicate is `status < 400` as in aiohttp.
-/

/-- The parts of an HTTP response the source reads. -/
structure HResponse where
  status : Nat
  reason : String
  body : String
  headersRepr : String
  location : Option String
deriving DecidableEq, Repr

/-- Client state read by `_handle_response`: `self.token` and whether a
custom `network_requester` is configured. -/
structure ClientCfg where
  token : Option String
  hasNetworkRequester : Bool
deriving DecidableEq, Repr

/-- What `_handle_response` does: return the body text, RETURN (not
raise) the "Retry request" `IntegrationAPIError` object after rotating
the proxy, raise `IntegrationAuthError`, or raise
`IntegrationAPIError`. -/
inductive HandlerResult where
  | text (body : String)
  | retrySignal
  | authError (message : String) (statusCode : Nat)
  | apiError (message : String) (statusCode : Nat)
deriving DecidableEq, Repr

/-- aiohttp's `response.ok`: status below 400. -/
def respOk (r : HResponse) : Bool :=
  r.status < 400

/-- Source lines 146-180, `_handle_response`. -/
def handle_response (cfg : ClientCfg) (r : HResponse) : HandlerResult :=
  if r.status == 200 || respOk r then .text r.body
  else if 400 ≤ r.status && r.status < 500 then
    if r.status == 403 && cfg.hasNetworkRequester then .retrySignal
    else
      match cfg.token with
      | none => .authError "No access token. [Credentials might not exist/be valid]" 400
      | some _ => .authError ("AppFolio: " ++ toString r.status ++ " - " ++ r.reason) r.status
  else .apiError ("AppFolio: " ++ toString r.status ++ " - " ++ r.headersRepr) r.status

/-- Source line 111: the redirect status codes `(301, 302, 303, 307, 308)`. -/
def isRedirectStatus (s : Nat) : Bool :=
  s == 301 || s == 302 || s == 303 || s == 307 || s == 308

/-- `f"{parsed_url.scheme}://{parsed_url.netloc}"` of source lines
123-126: the scheme and network-location prefix of an absolute URL,
modelling `urllib.parse.urlparse` for `scheme://host/...`-shaped URLs
(the host part ends at the first `/`; a URL with no `://` has empty
scheme and netloc). -/
def splitSchemeAux (acc : List Char) : List Char → Option (List Char × List Char)
  | ':' :: '/' :: '/' :: rest => some (acc.reverse, rest)
  | c :: rest => splitSchemeAux (c :: acc) rest
  | [] => none

/-- The `scheme://netloc` prefix prepended to a relative `Location`. -/
def schemeNetloc (url : String) : String :=
  match splitSchemeAux [] url.data with
  | some (sch, rest) => String.mk sch ++ "://" ++ String.mk (rest.takeWhile (fun c => c ≠ '/'))
  | none => "://"

/-- `next_url.startswith("/")` of source line 122. -/
def startsWithSlash (s : String) : Bool :=
  match s.data with
  | '/' :: _ => true
  | _ => false

/-- A request issued by the manual redirect loop (method and URL). -/
structure ReqRecord where
  method : String
  url : String
deriving DecidableEq, Repr

/-- Outcome of the manual redirect loop: a handled final response, or a
raised `IntegrationAPIError` (missing `Location`, or too many
redirects). -/
inductive LoopOutcome where
  | handled (res : HandlerResult)
  | redirectError (message : String)
deriving DecidableEq, Repr

/-- The message of source lines 116-119. -/
def noLocationMsg (status : Nat) : String :=
  "Received redirect status " ++ toString status ++ " but no Location header"

/-- The message of source lines 141-144. -/
def tooManyMsg (maxRedirects : Nat) : String :=
  "Too many redirects (max: " ++ toString maxRedirects ++ ")"

/-- Source lines 99-144, `_handle_manual_redirect`, with the environment
`env` supplying the response to the i-th request issued.  `fuel` is
`max_redirects - redirect_count`, so `fuel = 0` is the exit of the
`while redirect_count < max_redirects` loop; `count` is the current
`redirect_count`.  Returns the requests issued (in order) and the
outcome. -/
def redirectLoopGo (cfg : ClientCfg) (env : Nat → HResponse) (maxRedirects : Nat) :
    Nat → Nat → String → String → List ReqRecord × LoopOutcome
  | 0, _, _, _ => ([], .redirectError (tooManyMsg maxRedirects))
  | fuel + 1, count, method, url =>
    let r := env count
    let req : ReqRecord := ⟨method, url⟩
    if isRedirectStatus r.status then
      match r.location with
      | none => ([req], .redirectError (noLocationMsg r.status))
      | some loc =>
        if loc == "" then ([req], .redirectError (noLocationMsg r.status))
        else
          let nextUrl := if startsWithSlash loc then schemeNetloc url ++ loc else loc
          let nextMethod := if r.status == 303 then "GET" else method
          let rec_ := redirectLoopGo cfg env maxRedirects fuel (count + 1) nextMethod nextUrl
          (req :: rec_.1, rec_.2)
    else ([req], .handled (handle_response cfg r))

/-- `_handle_manual_redirect(session, method, url, max_redirects)`. -/
def handle_manual_redirect (cfg : ClientCfg) (env : Nat → HResponse)
    (method url : String) (maxRedirects : Nat) : List ReqRecord × LoopOutcome :=
  redirectLoopGo cfg env maxRedirects maxRedirects 0 method url

/-- Source lines 182-200: the `codes` table of `_get_state_code`, in
source order. -/
def state_codes : List (String × String) :=
  [("Open", "Open"),
   ("New", "0"),
   ("New by Appfolio", "10"),
   ("Assigned", "9"),
   ("Assigned by Appfolio", "11"),
   ("Scheduled", "3"),
   ("Waiting", "6"),
   ("Estimate Requested", "1"),
   ("Estimated", "2"),
   ("Work Done", "8"),
   ("Ready to Bill", "12"),
   ("Completed", "4"),
   ("Completed No Need To Bill", "7"),
   ("Canceled", "5")]

/-- `_get_state_code(status)`: `codes.get(status)`. -/
def get_state_code (status : String) : Option String :=
  state_codes.lookup status

/-- Source lines 777-779 of `fetch_work_orders`: the status filter is the
state code when that code is truthy, and is omitted otherwise. -/
def work_order_status_filter (status : String) : Option String :=
  match get_state_code status with
  | none => none
  | some c => if c == "" then none else some c

/-- Whether a handler result is a raised `IntegrationAuthError`. -/
def isAuthError : HandlerResult → Bool
  | .authError _ _ => true
  | _ => false

/-- A transport that answers every request with a relative 302 redirect:
an infinite redirect loop. -/
def envAlwaysRedirect : Nat → HResponse :=
  fun _ => ⟨302, "Found", "", "", some "/loop"⟩

/-- A transport that answers with a 301 redirect carrying no `Location`
header. -/
def envNoLocation : Nat → HResponse :=
  fun _ => ⟨301, "Moved Permanently", "", "", none⟩

/-- A transport that answers the first request with a relative 303
redirect and every later request with 200. -/
def envSeeOther : Nat → HResponse :=
  fun i => if i = 0 then ⟨303, "See Other", "", "", some "/next"⟩
           else ⟨200, "OK", "done", "", none⟩

/-- All requests of a trace use method GET. -/
def allMethodsGET (rs : List ReqRecord) : Bool :=
  rs.all (fun r => r.method == "GET")

/-- Follows the specification's words for claim C4: the lookup "must map
`(type, id)` to exactly the last Resource seen with that key".  This is
the specification-side definition compared against `buildLookup` in the
refinement theorem. -/
def lastResourceWith (key : JSON × JSON) : List JSON → Option Dict
  | [] => none
  | item :: rest =>
    match lastResourceWith key rest with
    | some r => some r
    | none =>
      match item with
      | .obj kvs =>
        match lookupLast "type" kvs, lookupLast "id" kvs with
        | some t, some i => if pyKeyEq (t, i) key then some kvs else none
        | _, _ => none
      | _ => none

/-- A flattened relationship sub-record: a dict carrying `id` and `type`
entries, or (for a list relationship) a list of such dicts. -/
def subrecordOK : JSON → Bool
  | .obj d => hasKeyD d "id" && hasKeyD d "type"
  | .arr xs => xs.all (fun x =>
      match x with
      | .obj d => hasKeyD d "id" && hasKeyD d "type"
      | _ => false)
  | _ => false

/-- A well-formed `(type, id)` reference object whose key components are
hashable. -/
def wfRef (j : JSON) : Bool :=
  match j with
  | .obj kvs =>
    (match lookupLast "type" kvs with
     | some t => hashable t
     | none => false) &&
    (match lookupLast "id" kvs with
     | some i => hashable i
     | none => false)
  | _ => false

/-- A well-formed relationship value: falsy, or a dict without `data`,
or a dict whose `data` is falsy, a single reference, or a list of
references. -/
def wfRelValue (j : JSON) : Bool :=
  match j with
  | .obj kvs =>
    (match lookupLast "data" kvs with
     | none => true
     | some d =>
       if !d.truthy then true
       else
         match d with
         | .arr items => items.all wfRef
         | _ => wfRef d)
  | _ => !j.truthy

/-- The relationship value has no non-empty list `data` (a non-empty
list-valued relationship on a resource resolved in single position makes
the source call `.get` on a list). -/
def relDataNotList (j : JSON) : Bool :=
  match j with
  | .obj kvs =>
    (match lookupLast "data" kvs with
     | some (.arr (_ :: _)) => false
     | _ => true)
  | _ => true

/-- The key is absent or bound to a dict value. -/
def isNoneOrObj : Option JSON → Bool
  | none => true
  | some (.obj _) => true
  | some _ => false

/-- A well-formed resource dict: hashable `id` and `type`, dict-valued
(or absent) `attributes`, `links` and `relationships`, well-formed
relationship values; with `noListRels` additionally no non-empty
list-valued relationship (required of `included` resources, whose
relationships the source flattens in single position). -/
def wfResourceObj (noListRels : Bool) (kvs : Dict) : Bool :=
  (match lookupLast "id" kvs with
   | some i => hashable i
   | none => false) &&
  (match lookupLast "type" kvs with
   | some t => hashable t
   | none => false) &&
  isNoneOrObj (lookupLast "attributes" kvs) &&
  isNoneOrObj (lookupLast "links" kvs) &&
  (match lookupLast "relationships" kvs with
   | none => true
   | some (.obj rels) =>
     rels.all (fun p => wfRelValue p.2 && (!noListRels || relDataNotList p.2))
   | some _ => false)

/-- A well-formed resource value. -/
def wfResource (noListRels : Bool) (j : JSON) : Bool :=
  match j with
  | .obj kvs => wfResourceObj noListRels kvs
  | _ => false

/-- Every resource stored in the lookup is a well-formed included
resource. -/
def wfLookup (lk : Lookup) : Prop :=
  ∀ e ∈ lk, wfResourceObj true e.2 = true

/-- A fully well-formed JSON:API payload: `included` absent or a list of
well-formed included resources, `data` a list of well-formed
resources. -/
def wfPayload (p : Dict) : Bool :=
  (match lookupLast "included" p with
   | none => true
   | some (.arr items) => items.all (wfResource true)
   | some _ => false) &&
  (match lookupLast "data" p with
   | some (.arr ds) => ds.all (wfResource false)
   | _ => false)

/-- Claim C1 counterexample payload: well formed by the data model of the
specification (every resource has string `type`/`id`, every relationship
`data` is a reference or a list of references), but the included
resource `o/1` carries a non-empty list-valued relationship and is
resolved in single position. -/
def c1Payload : Dict :=
  [("data", .arr [.obj [("type", .str "a"), ("id", .str "1"),
     ("relationships", .obj [("owner", .obj [("data",
        .obj [("type", .str "o"), ("id", .str "1")])])])]]),
   ("included", .arr [.obj [("type", .str "o"), ("id", .str "1"),
     ("relationships", .obj [("items", .obj [("data",
        .arr [.obj [("type", .str "x"), ("id", .str "1")]])])])]])]

/-- A fully well-formed payload (the worked example of the
specification). -/
def c1WfPayload : Dict :=
  [("data", .arr [.obj [("type", .str "wo"), ("id", .str "1"),
    ("attributes", .obj [("status", .str "Open")]),
    ("relationships", .obj [("vendor", .obj [("data",
      .obj [("type", .str "v"), ("id", .str "9")])])])]]),
   ("included", .arr [.obj [("type", .str "v"), ("id", .str "9"),
    ("attributes", .obj [("name", .str "Acme")])]])]

/-- Claim C2 counterexample payload: one resource with a list-valued
relationship `tags` holding a single reference that resolves to nothing
(`included` is absent). -/
def c2Payload : Dict :=
  [("data", .arr [.obj [("type", .str "wo"), ("id", .str "1"),
    ("relationships", .obj [("tags", .obj [("data",
      .arr [.obj [("type", .str "t"), ("id", .str "9")]])])])]])]

/-- The record the source produces for `c2Payload`: the `tags` key IS
present, bound to the empty list. -/
def c2Record : Dict :=
  [("id", .str "1"), ("type", .str "wo"), ("tags", .arr [])]

/-- Claim C3 counterexample payload: resource `a/1` has a single
relationship `owner` (resolving to `p/1`, whose nested relationship
`address` resolves to `r/1`) AND a plain relationship literally named
`owner_address` (resolving to `q/1`).  Both write the key
`owner_address`; dict assignment makes the later write win. -/
def c3Payload : Dict :=
  [("data", .arr [.obj [("type", .str "a"), ("id", .str "1"),
     ("relationships", .obj [
        ("owner", .obj [("data", .obj [("type", .str "p"), ("id", .str "1")])]),
        ("owner_address", .obj [("data", .obj [("type", .str "q"), ("id", .str "1")])])])]]),
   ("included", .arr [
     .obj [("type", .str "p"), ("id", .str "1"),
       ("relationships", .obj [("address", .obj [("data",
          .obj [("type", .str "r"), ("id", .str "1")])])])],
     .obj [("type", .str "q"), ("id", .str "1"),
       ("attributes", .obj [("street", .str "q street")])],
     .obj [("type", .str "r"), ("id", .str "1"),
       ("attributes", .obj [("street", .str "r street")])]])]

/-- The record the source produces for `c3Payload`. -/
def c3Record : Dict :=
  [("id", .str "1"), ("type", .str "a"),
   ("owner", .obj [("id", .str "1"), ("type", .str "p")]),
   ("owner_address", .obj [("street", .str "r street"), ("id", .str "1"), ("type", .str "r")]),
   ("owner_address", .obj [("street", .str "q street"), ("id", .str "1"), ("type", .str "q")])]

/-- Claim C4 witness data: two included resources with the same
`(type, id)` key `("a", "1")` but different attributes. -/
def c4Items : List JSON :=
  [.obj [("type", .str "a"), ("id", .str "1"), ("attributes", .obj [("v", .str "first")])],
   .obj [("type", .str "a"), ("id", .str "1"), ("attributes", .obj [("v", .str "second")])]]

/-- Claim C3 witness data: the single relationship `owner` of the data
item, pointing at `p/1`. -/
def c3wRelData : JSON :=
  .obj [("data", .obj [("type", .str "p"), ("id", .str "1")])]

/-- Claim C3 witness data: the nested relationship `address` of `p/1`,
pointing at `r/1`. -/
def c3wNestedData : JSON :=
  .obj [("data", .obj [("type", .str "r"), ("id", .str "1")])]

/-- Claim C3 witness data: the included resource `p/1`. -/
def c3wOwner : Dict :=
  [("type", .str "p"), ("id", .str "1"),
   ("relationships", .obj [("address", c3wNestedData)])]

/-- Claim C3 witness data: the included resource `r/1`. -/
def c3wAddress : Dict :=
  [("type", .str "r"), ("id", .str "1"),
   ("attributes", .obj [("street", .str "r street")])]

/-- Claim C3 witness data: the included lookup holding `p/1` and `r/1`. -/
def c3wLookup : Lookup :=
  [((.str "p", .str "1"), c3wOwner), ((.str "r", .str "1"), c3wAddress)]

/-- Claim C3 witness data: the data item with the single relationship
`owner`. -/
def c3wItem : Dict :=
  [("type", .str "a"), ("id", .str "1"),
   ("relationships", .obj [("owner", c3wRelData)])]

/-!
Theorems.
-/

theorem redirectLoopGo_step_redirect (cfg : ClientCfg) (env : Nat → HResponse)
    (maxR fuel count : Nat) (method url : String) (l : String)
    (hred : isRedirectStatus (env count).status = true)
    (hloc : (env count).location = some l)
    (hne : (l == "") = false) :
    redirectLoopGo cfg env maxR (fuel + 1) count method url =
      (⟨method, url⟩ ::
        (redirectLoopGo cfg env maxR fuel (count + 1)
          (if (env count).status == 303 then "GET" else method)
          (if startsWithSlash l then schemeNetloc url ++ l else l)).1,
       (redirectLoopGo cfg env maxR fuel (count + 1)
          (if (env count).status == 303 then "GET" else method)
          (if startsWithSlash l then schemeNetloc url ++ l else l)).2) := by
  simp only [redirectLoopGo, hred, hloc, hne, if_true, Bool.false_eq_true, if_false]

theorem redirectLoopGo_saturates (cfg : ClientCfg) (env : Nat → HResponse) (maxR : Nat)
    (h : ∀ i, isRedirectStatus (env i).status = true ∧
         ∃ l, (env i).location = some l ∧ l ≠ "") :
    ∀ fuel count method url,
      (redirectLoopGo cfg env maxR fuel count method url).1.length = fuel ∧
      (redirectLoopGo cfg env maxR fuel count method url).2 =
        .redirectError (tooManyMsg maxR) := by
  intro fuel
  induction fuel with
  | zero => intro _ _ _; exact ⟨rfl, rfl⟩
  | succ f ih =>
    intro count method url
    obtain ⟨hred, l, hloc, hne⟩ := h count
    rw [redirectLoopGo_step_redirect cfg env maxR f count method url l hred hloc
      (beq_eq_false_iff_ne.mpr hne)]
    constructor
    · simp [(ih _ _ _).1]
    · exact (ih _ _ _).2

theorem redirectLoopGo_head (cfg : ClientCfg) (env : Nat → HResponse)
    (maxR fuel count : Nat) (method url : String) (hf : 0 < fuel) :
    ((redirectLoopGo cfg env maxR fuel count method url).1).head? =
      some ⟨method, url⟩ := by
  obtain ⟨f, rfl⟩ : ∃ f, fuel = f + 1 := ⟨fuel - 1, by omega⟩
  unfold redirectLoopGo
  dsimp only
  split
  · split
    · rfl
    · split
      · rfl
      · rfl
  · rfl

theorem redirectLoopGo_method_get (cfg : ClientCfg) (env : Nat → HResponse) (maxR : Nat) :
    ∀ fuel count url req, req ∈ (redirectLoopGo cfg env maxR fuel count "GET" url).1 →
      req.method = "GET" := by
  intro fuel
  induction fuel with
  | zero =>
    intro count url req h
    exact absurd h (by simp [redirectLoopGo])
  | succ f ih =>
    intro count url req h
    revert h
    unfold redirectLoopGo
    dsimp only
    split
    · split
      · intro h
        simp only [List.mem_singleton] at h
        rw [h]
      · split
        · intro h
          simp only [List.mem_singleton] at h
          rw [h]
        · simp only [ite_self]
          intro h
          rcases List.mem_cons.mp h with h | h
          · rw [h]
          · exact ih _ _ _ h
    · intro h
      simp only [List.mem_singleton] at h
      rw [h]

/-- Claim C6: when every response is a redirect (301/302/303/307/308)
with a (non-empty) `Location`, the manual redirect loop issues exactly
`max_redirects` requests and then raises the
"Too many redirects" `IntegrationAPIError` instead of looping forever;
and a redirect response without a `Location` header makes it raise the
no-`Location` protocol error immediately, after a single request. -/
theorem c6_redirect_loop_bounded (cfg : ClientCfg) (env : Nat → HResponse)
    (method url : String) (maxRedirects : Nat) :
    ((∀ i, isRedirectStatus (env i).status = true ∧
        ∃ l, (env i).location = some l ∧ l ≠ "") →
      (handle_manual_redirect cfg env method url maxRedirects).1.length = maxRedirects ∧
      (handle_manual_redirect cfg env method url maxRedirects).2 =
        .redirectError (tooManyMsg maxRedirects)) ∧
    (0 < maxRedirects → isRedirectStatus (env 0).status = true →
      (env 0).location = none →
      handle_manual_redirect cfg env method url maxRedirects =
        ([⟨method, url⟩], .redirectError (noLocationMsg (env 0).status))) := by
  constructor
  · intro h
    exact ⟨(redirectLoopGo_saturates cfg env maxRedirects h maxRedirects 0 method url).1,
           (redirectLoopGo_saturates cfg env maxRedirects h maxRedirects 0 method url).2⟩
  · intro hpos hred hloc
    obtain ⟨m, rfl⟩ : ∃ m, maxRedirects = m + 1 := ⟨maxRedirects - 1, by omega⟩
    unfold handle_manual_redirect
    unfold redirectLoopGo
    simp only [hred, hloc, if_true]

/-- Claim C6 witness: an endless relative-redirect transport exhausts the
bound of 5, and a locationless 301 fails immediately. -/
theorem c6_redirect_loop_bounded_holds :
    (handle_manual_redirect ⟨none, false⟩ envAlwaysRedirect "GET" "https://ex.com/a" 5).1.length = 5 ∧
    (handle_manual_redirect ⟨none, false⟩ envAlwaysRedirect "GET" "https://ex.com/a" 5).2 =
      .redirectError (tooManyMsg 5) ∧
    handle_manual_redirect ⟨none, false⟩ envNoLocation "GET" "https://ex.com/a" 5 =
      ([⟨"GET", "https://ex.com/a"⟩], .redirectError (noLocationMsg 301)) := by
  have h1 := (c6_redirect_loop_bounded ⟨none, false⟩ envAlwaysRedirect
    "GET" "https://ex.com/a" 5).1
    (fun _ => ⟨rfl, "/loop", rfl, by decide⟩)
  have h2 := (c6_redirect_loop_bounded ⟨none, false⟩ envNoLocation
    "GET" "https://ex.com/a" 5).2 (by decide) rfl rfl
  exact ⟨h1.1, h1.2, h2⟩

/-- Claim C7: in the manual redirect loop, a redirect whose `Location` is
a relative path makes the next request go to the current URL's
scheme+host prefixed to that path, with method GET when the status was
303 (the original method otherwise); and after a 303 response every
subsequent request of the loop uses method GET. -/
theorem c7_redirect_relative_and_303 (cfg : ClientCfg) (env : Nat → HResponse)
    (method url : String) (maxRedirects : Nat) (l : String)
    (hmax : 2 ≤ maxRedirects)
    (hred : isRedirectStatus (env 0).status = true)
    (hloc : (env 0).location = some l)
    (hslash : startsWithSlash l = true) :
    (handle_manual_redirect cfg env method url maxRedirects).1.get? 1 =
      some ⟨if (env 0).status == 303 then "GET" else method, schemeNetloc url ++ l⟩ ∧
    ((env 0).status = 303 →
      ∀ req ∈ (handle_manual_redirect cfg env method url maxRedirects).1.drop 1,
        req.method = "GET") := by
  have hne : l ≠ "" := by
    intro he
    subst he
    simp [startsWithSlash] at hslash
  have hle : (l == "") = false := beq_eq_false_iff_ne.mpr hne
  obtain ⟨f, rfl⟩ : ∃ f, maxRedirects = f + 2 := ⟨maxRedirects - 2, by omega⟩
  unfold handle_manual_redirect
  rw [redirectLoopGo_step_redirect cfg env (f + 2) (f + 1) 0 method url l hred hloc hle]
  constructor
  · simp only [hslash, if_true, List.get?_cons_succ, List.get?_zero]
    exact redirectLoopGo_head cfg env (f + 2) (f + 1) 1 _ _ (by omega)
  · intro h303 req hmem
    simp only [h303, hslash, if_true, List.drop_succ_cons, List.drop_zero] at hmem
    have : ((303 : Nat) == 303) = true := by decide
    rw [this] at hmem
    simp only [if_true] at hmem
    exact redirectLoopGo_method_get cfg env (f + 2) (f + 1) 1 _ req hmem

/-- Claim C7 witness: a 303 with relative `Location` `/next` from
`https://app.example.com/login` sends the second request as
`GET https://app.example.com/next`, and every request after the first
uses GET. -/
theorem c7_redirect_relative_and_303_holds :
    (handle_manual_redirect ⟨none, false⟩ envSeeOther "POST"
        "https://app.example.com/login" 5).1.get? 1 =
      some ⟨"GET", "https://app.example.com/next"⟩ ∧
    allMethodsGET
      ((handle_manual_redirect ⟨none, false⟩ envSeeOther "POST"
        "https://app.example.com/login" 5).1.drop 1) = true := by
  have h := c7_redirect_relative_and_303 ⟨none, false⟩ envSeeOther "POST"
    "https://app.example.com/login" 5 "/next" (by decide) rfl rfl rfl
  refine ⟨h.1, ?_⟩
  have h2 := h.2 rfl
  apply List.all_eq_true.mpr
  intro r hr
  exact beq_iff_eq.mpr (h2 r hr)

theorem lookup_eq_none_of_no_key (s : String) :
    ∀ l : List (String × String), (∀ p ∈ l, p.1 ≠ s) → l.lookup s = none := by
  intro l
  induction l with
  | nil => intro _; rfl
  | cons hd tl ih =>
    obtain ⟨k, v⟩ := hd
    intro h
    have hne : k ≠ s := h (k, v) (List.mem_cons_self _ _)
    have hb : (s == k) = false := beq_eq_false_iff_ne.mpr (Ne.symm hne)
    simp only [List.lookup, hb]
    exact ih (fun p hp => h p (List.mem_cons_of_mem _ hp))

theorem lookup_some_mem (s : String) (c : String) :
    ∀ l : List (String × String), l.lookup s = some c → (s, c) ∈ l := by
  intro l
  induction l with
  | nil => intro h; exact absurd h (by simp [List.lookup])
  | cons hd tl ih =>
    obtain ⟨k, v⟩ := hd
    intro h
    by_cases he : (s == k) = true
    · have hs : s = k := eq_of_beq he
      have hv : v = c := by simpa [List.lookup, he] using h
      subst hs; subst hv
      exact List.mem_cons_self _ _
    · have he' : (s == k) = false := by simpa using he
      exact List.mem_cons_of_mem _ (ih (by simpa [List.lookup, he'] using h))

/-- Claim C10: `_get_state_code` is total with a 14-entry table; it
returns `None` for every status outside the table (so
`fetch_work_orders` silently omits the status filter there); `"Open"`
maps to the string `"Open"` itself, and every other known status maps to
a numeric code string, e.g. `"New" ↦ "0"` and `"Canceled" ↦ "5"`. -/
theorem c10_state_code_table :
    state_codes.length = 14 ∧
    get_state_code "Open" = some "Open" ∧
    get_state_code "New" = some "0" ∧
    get_state_code "Canceled" = some "5" ∧
    (∀ s : String, (∀ p ∈ state_codes, p.1 ≠ s) →
      get_state_code s = none ∧ work_order_status_filter s = none) ∧
    (∀ s c : String, get_state_code s = some c → s ≠ "Open" →
      c ≠ "" ∧ c.data.all Char.isDigit = true) := by
  refine ⟨rfl, rfl, rfl, rfl, ?_, ?_⟩
  · intro s hs
    have h := lookup_eq_none_of_no_key s state_codes hs
    refine ⟨h, ?_⟩
    simp [work_order_status_filter, get_state_code, h]
  · intro s c hsc hne
    have hmem : (s, c) ∈ state_codes := lookup_some_mem s c state_codes hsc
    have htab : ∀ p ∈ state_codes, p.1 ≠ "Open" →
        p.2 ≠ "" ∧ p.2.data.all Char.isDigit = true := by decide
    exact htab (s, c) hmem hne

/-- Claim C10 witness: evaluated at the in-table statuses and at the
out-of-table status `"Bogus"`. -/
theorem c10_state_code_table_holds :
    get_state_code "Bogus" = none ∧ work_order_status_filter "Bogus" = none ∧
    get_state_code "Scheduled" = some "3" ∧ ("3" : String) ≠ "" ∧
    ("3" : String).data.all Char.isDigit = true := by
  refine ⟨(c10_state_code_table.2.2.2.2.1 "Bogus" (by decide)).1,
          (c10_state_code_table.2.2.2.2.1 "Bogus" (by decide)).2,
          rfl, ?_, ?_⟩
  · exact (c10_state_code_table.2.2.2.2.2 "Scheduled" "3" rfl (by decide)).1
  · exact (c10_state_code_table.2.2.2.2.2 "Scheduled" "3" rfl (by decide)).2

/-- Claim C8 counterexample: a 403 response handled with a custom network
requester configured and no session token does NOT raise an
Authentication error — the handler rotates the proxy and RETURNS the
"Retry request" signal object instead. -/
theorem c8_counterexample :
    handle_response ⟨none, true⟩ ⟨403, "Forbidden", "", "", none⟩ =
      HandlerResult.retrySignal ∧
    isAuthError (handle_response ⟨none, true⟩ ⟨403, "Forbidden", "", "", none⟩) =
      false := by
  exact ⟨rfl, rfl⟩

/-- Claim C8 (amended): for every 4xx response, EXCEPT a 403 with a
custom network requester configured (which returns a retry signal after
rotating the proxy), the handler raises an Authentication error: with no
session token configured its message is the missing-credentials message
"No access token. [Credentials might not exist/be valid]" with status
400; with a token configured the message carries the status code and
reason phrase. -/
theorem c8_amended_auth_errors (cfg : ClientCfg) (status : Nat)
    (reason body hdrs : String) (loc : Option String)
    (h1 : 400 ≤ status) (h2 : status < 500)
    (h3 : ¬(status = 403 ∧ cfg.hasNetworkRequester = true)) :
    handle_response cfg ⟨status, reason, body, hdrs, loc⟩ =
      (match cfg.token with
       | none =>
         .authError "No access token. [Credentials might not exist/be valid]" 400
       | some _ =>
         .authError ("AppFolio: " ++ toString status ++ " - " ++ reason) status) := by
  have hok : (status == 200 || respOk ⟨status, reason, body, hdrs, loc⟩) = false := by
    simp [respOk]
    omega
  have hrange : (decide (400 ≤ status) && decide (status < 500)) = true := by
    simp [h1, h2]
  have hretry : (status == 403 && cfg.hasNetworkRequester) = false := by
    rcases Bool.eq_false_or_eq_true cfg.hasNetworkRequester with hb | hb
    · have : status ≠ 403 := fun he => h3 ⟨he, hb⟩
      simp [hb, this]
    · simp [hb]
  simp only [handle_response, hok, hrange, hretry, Bool.false_eq_true, if_false, if_true]

/-- Claim C8 witness: a 403 with no requester, without and with a
token. -/
theorem c8_amended_auth_errors_holds :
    handle_response ⟨none, false⟩ ⟨403, "Forbidden", "", "", none⟩ =
      .authError "No access token. [Credentials might not exist/be valid]" 400 ∧
    handle_response ⟨some "cookie", false⟩ ⟨403, "Forbidden", "", "", none⟩ =
      .authError "AppFolio: 403 - Forbidden" 403 := by
  constructor
  · exact c8_amended_auth_errors ⟨none, false⟩ 403 "Forbidden" "" "" none
      (by decide) (by decide) (by simp)
  · exact c8_amended_auth_errors ⟨some "cookie", false⟩ 403 "Forbidden" "" "" none
      (by decide) (by decide) (by simp)

/-- Claim C5: `denormalize_response` is a pure, deterministic function of
its payload.  The embedding witnesses purity — the source is a
`@staticmethod` reading nothing but its argument and a function-local
lookup table, so it embeds as a total function — and this theorem records
that equal payloads give equal (hence repeatable) results. -/
theorem c5_denormalize_deterministic (p q : Dict) (h : p = q) :
    denormalize_response p = denormalize_response q := by
  rw [h]

/-- Claim C5 witness: two calls on the same concrete payload agree. -/
theorem c5_denormalize_deterministic_holds :
    denormalize_response [("data", .arr [.obj [("type", .str "wo"), ("id", .str "1")]])] =
      denormalize_response [("data", .arr [.obj [("type", .str "wo"), ("id", .str "1")]])] :=
  c5_denormalize_deterministic _ _ rfl


theorem mapME_ok_of_forall {α β : Type} {f : α → Except String β} :
    ∀ xs : List α, (∀ x ∈ xs, ∃ y, f x = .ok y) → ∃ ys, mapME f xs = .ok ys := by
  intro xs
  induction xs with
  | nil => exact fun _ => ⟨[], rfl⟩
  | cons x xs ih =>
    intro h
    obtain ⟨y, hy⟩ := h x (List.mem_cons_self _ _)
    obtain ⟨ys, hys⟩ := ih (fun a ha => h a (List.mem_cons_of_mem _ ha))
    exact ⟨y :: ys, by simp only [mapME, hy, hys]⟩

theorem mapME_ok_length {α β : Type} {f : α → Except String β} :
    ∀ xs : List α, ∀ ys : List β, mapME f xs = .ok ys → ys.length = xs.length := by
  intro xs
  induction xs with
  | nil =>
    intro ys h
    simp only [mapME] at h
    cases h
    rfl
  | cons x xs ih =>
    intro ys h
    simp only [mapME] at h
    cases hfx : f x with
    | error e => rw [hfx] at h; cases h
    | ok y =>
      rw [hfx] at h
      cases hmx : mapME f xs with
      | error e => rw [hmx] at h; cases h
      | ok ys' =>
        rw [hmx] at h
        cases h
        simp [ih ys' hmx]

theorem mapME_ok_get {α β : Type} {f : α → Except String β} :
    ∀ xs : List α, ∀ ys : List β, mapME f xs = .ok ys →
      ∀ i (h1 : i < xs.length) (h2 : i < ys.length),
        f (xs.get ⟨i, h1⟩) = .ok (ys.get ⟨i, h2⟩) := by
  intro xs
  induction xs with
  | nil =>
    intro ys h i h1 h2
    exact absurd h1 (by simp)
  | cons x xs ih =>
    intro ys h i h1 h2
    simp only [mapME] at h
    cases hfx : f x with
    | error e => rw [hfx] at h; cases h
    | ok y =>
      rw [hfx] at h
      cases hmx : mapME f xs with
      | error e => rw [hmx] at h; cases h
      | ok ys' =>
        rw [hmx] at h
        cases h
        cases i with
        | zero => simpa using hfx
        | succ j =>
          have hj1 : j < xs.length := by simpa using h1
          have hj2 : j < ys'.length := by simpa using h2
          simpa using ih ys' hmx j hj1 hj2

theorem mapME_ok_mem {α β : Type} {f : α → Except String β} :
    ∀ xs : List α, ∀ ys : List β, mapME f xs = .ok ys →
      ∀ x ∈ xs, ∃ y ∈ ys, f x = .ok y := by
  intro xs
  induction xs with
  | nil => intro ys h x hx; cases hx
  | cons x xs ih =>
    intro ys h a ha
    simp only [mapME] at h
    cases hfx : f x with
    | error e => rw [hfx] at h; cases h
    | ok y =>
      rw [hfx] at h
      cases hmx : mapME f xs with
      | error e => rw [hmx] at h; cases h
      | ok ys' =>
        rw [hmx] at h
        cases h
        rcases List.mem_cons.mp ha with ha | ha
        · exact ⟨y, List.mem_cons_self _ _, ha ▸ hfx⟩
        · obtain ⟨b, hb, hfb⟩ := ih ys' hmx a ha
          exact ⟨b, List.mem_cons_of_mem _ hb, hfb⟩

theorem mapME_ok_mem_rev {α β : Type} {f : α → Except String β} :
    ∀ xs : List α, ∀ ys : List β, mapME f xs = .ok ys →
      ∀ y ∈ ys, ∃ x ∈ xs, f x = .ok y := by
  intro xs
  induction xs with
  | nil =>
    intro ys h y hy
    simp only [mapME] at h
    cases h
    cases hy
  | cons x xs ih =>
    intro ys h b hb
    simp only [mapME] at h
    cases hfx : f x with
    | error e => rw [hfx] at h; cases h
    | ok y =>
      rw [hfx] at h
      cases hmx : mapME f xs with
      | error e => rw [hmx] at h; cases h
      | ok ys' =>
        rw [hmx] at h
        cases h
        rcases List.mem_cons.mp hb with hb | hb
        · exact ⟨x, List.mem_cons_self _ _, hb ▸ hfx⟩
        · obtain ⟨a, ha, hfa⟩ := ih ys' hmx b hb
          exact ⟨a, List.mem_cons_of_mem _ ha, hfa⟩

theorem lookupLast_mem : ∀ (kvs : Dict) (k : String) (v : JSON),
    lookupLast k kvs = some v → (k, v) ∈ kvs := by
  intro kvs
  induction kvs with
  | nil => intro k v h; cases h
  | cons hd tl ih =>
    obtain ⟨k', v'⟩ := hd
    intro k v h
    cases hrec : lookupLast k tl with
    | some w =>
      simp only [lookupLast, hrec] at h
      cases h
      exact List.mem_cons_of_mem _ (ih k _ hrec)
    | none =>
      simp only [lookupLast, hrec] at h
      by_cases hk : (k' == k) = true
      · rw [if_pos hk] at h
        cases h
        have : k' = k := eq_of_beq hk
        subst this
        exact List.mem_cons_self _ _
      · rw [if_neg hk] at h
        cases h

theorem hasKeyD_of_mem : ∀ (kvs : Dict) (k : String) (v : JSON),
    (k, v) ∈ kvs → hasKeyD kvs k = true := by
  intro kvs
  induction kvs with
  | nil => intro k v h; cases h
  | cons hd tl ih =>
    obtain ⟨k', v'⟩ := hd
    intro k v h
    unfold hasKeyD
    cases hrec : lookupLast k tl with
    | some w => simp [lookupLast, hrec]
    | none =>
      rcases List.mem_cons.mp h with h | h
      · cases h
        simp [lookupLast, hrec]
      · have := ih k v h
        unfold hasKeyD at this
        rw [hrec] at this
        cases this

theorem lookupLast_any : ∀ (kvs : Dict) (k : String) (v : JSON),
    lookupLast k kvs = some v → kvs.any (fun p => p.1 == k) = true := by
  intro kvs k v h
  refine List.any_eq_true.mpr ⟨(k, v), lookupLast_mem kvs k v h, ?_⟩
  simp

theorem lookupLast_not_isEmpty : ∀ (kvs : Dict) (k : String) (v : JSON),
    lookupLast k kvs = some v → kvs.isEmpty = false := by
  intro kvs k v h
  cases kvs with
  | nil => cases h
  | cons hd tl => rfl

theorem pyItems_mem : ∀ (kvs : Dict) (k : String) (v : JSON),
    (k, v) ∈ pyItems kvs → (k, v) ∈ kvs := by
  intro kvs k v h
  unfold pyItems at h
  obtain ⟨a, _, ha⟩ := List.mem_filterMap.mp h
  cases hl : lookupLast a kvs with
  | none => rw [hl] at ha; cases ha
  | some w =>
    rw [hl] at ha
    simp only [Option.map_some'] at ha
    cases ha
    exact lookupLast_mem _ _ _ hl

theorem lookupGet_mem : ∀ (lk : Lookup) (key : JSON × JSON) (r : Dict),
    lookupGet lk key = some r → ∃ k, (k, r) ∈ lk := by
  intro lk
  induction lk with
  | nil => intro key r h; cases h
  | cons hd tl ih =>
    obtain ⟨k', d⟩ := hd
    intro key r h
    cases hrec : lookupGet tl key with
    | some w =>
      simp only [lookupGet, hrec] at h
      cases h
      obtain ⟨k, hk⟩ := ih key _ hrec
      exact ⟨k, List.mem_cons_of_mem _ hk⟩
    | none =>
      simp only [lookupGet, hrec] at h
      by_cases hk : pyKeyEq k' key = true
      · rw [if_pos hk] at h
        cases h
        exact ⟨k', List.mem_cons_self _ _⟩
      · rw [if_neg hk] at h
        cases h

theorem getKey_ok_iff (kvs : Dict) (k : String) (v : JSON) :
    getKey kvs k = .ok v ↔ lookupLast k kvs = some v := by
  unfold getKey
  cases h : lookupLast k kvs <;> simp

/-- Claim C4: the included lookup built by `denormalize_response` maps
each `(type, id)` key to exactly the LAST resource with that key in
`payload["included"]` (insertion order; duplicate keys are silently
overwritten by later entries).  `lastResourceWith` is the
specification-side definition; `denormalize_response` builds the table
with a single `buildLookup` call per invocation. -/
theorem c4_lookup_last_wins : ∀ (items : List JSON) (lk : Lookup),
    buildLookup items = .ok lk →
    ∀ key, lookupGet lk key = lastResourceWith key items := by
  intro items
  induction items with
  | nil =>
    intro lk h key
    simp only [buildLookup] at h
    cases h
    rfl
  | cons item rest ih =>
    intro lk h key
    cases item with
    | obj kvs =>
      simp only [buildLookup] at h
      cases ht : getKey kvs "type" with
      | error e => rw [ht] at h; cases h
      | ok t =>
        rw [ht] at h
        dsimp only at h
        cases hi : getKey kvs "id" with
        | error e => rw [hi] at h; cases h
        | ok i =>
          rw [hi] at h
          dsimp only at h
          by_cases hh : (hashable t && hashable i) = true
          · rw [if_pos hh] at h
            cases hrec : buildLookup rest with
            | error e => rw [hrec] at h; cases h
            | ok lk' =>
              rw [hrec] at h
              cases h
              have hT : lookupLast "type" kvs = some t := (getKey_ok_iff kvs "type" t).mp ht
              have hI : lookupLast "id" kvs = some i := (getKey_ok_iff kvs "id" i).mp hi
              simp only [lookupGet, lastResourceWith, hT, hI, ih lk' hrec key]
          · rw [if_neg hh] at h
            cases h
    | null => simp only [buildLookup] at h; cases h
    | boolean b => simp only [buildLookup] at h; cases h
    | num n => simp only [buildLookup] at h; cases h
    | str s => simp only [buildLookup] at h; cases h
    | arr xs => simp only [buildLookup] at h; cases h

/-- Claim C4 witness: two included resources share the key
`("a", "1")`; the lookup returns the later one. -/
theorem c4_lookup_last_wins_holds :
    buildLookup c4Items =
      .ok [((.str "a", .str "1"),
            [("type", .str "a"), ("id", .str "1"), ("attributes", .obj [("v", .str "first")])]),
           ((.str "a", .str "1"),
            [("type", .str "a"), ("id", .str "1"), ("attributes", .obj [("v", .str "second")])])] ∧
    lookupGet [((.str "a", .str "1"),
            [("type", .str "a"), ("id", .str "1"), ("attributes", .obj [("v", .str "first")])]),
           ((.str "a", .str "1"),
            [("type", .str "a"), ("id", .str "1"), ("attributes", .obj [("v", .str "second")])])]
        (.str "a", .str "1") =
      lastResourceWith (.str "a", .str "1") c4Items ∧
    lastResourceWith (.str "a", .str "1") c4Items =
      some [("type", .str "a"), ("id", .str "1"), ("attributes", .obj [("v", .str "second")])] := by
  refine ⟨rfl, ?_, rfl⟩
  exact c4_lookup_last_wins c4Items _ rfl (.str "a", .str "1")

/-- Claim C2 counterexample: in `c2Payload` the list-valued relationship
`tags` has one reference and it resolves to nothing, yet the output
record DOES contain the key `tags`, bound to the empty list — the
resolved value `[None]` is a non-empty list, hence truthy, so the source
assigns the filtered (empty) list instead of skipping the key. -/
theorem c2_counterexample :
    denormalize_response c2Payload = .ok [c2Record] ∧
    lookupLast "tags" c2Record = some (.arr []) := by
  exact ⟨rfl, rfl⟩

theorem mapME_all_none {f : JSON → Except String (Option Dict)} :
    ∀ items : List JSON, (∀ it ∈ items, f it = .ok none) →
      mapME f items = .ok (items.map (fun _ => none)) := by
  intro items
  induction items with
  | nil => intro _; rfl
  | cons x xs ih =>
    intro h
    have hx : f x = .ok none := h x (List.mem_cons_self _ _)
    have hxs := ih (fun a ha => h a (List.mem_cons_of_mem _ ha))
    simp only [mapME, hx, hxs, List.map_cons]

/-- Claim C2 (amended): a single-valued relationship whose reference has
no matching entry in the included lookup contributes no key to its
record; but a list-valued relationship with a NON-EMPTY reference list
always contributes its key — bound to the list of flattened resolved
references, which is the EMPTY list when every reference is unresolved
(a non-empty list of `None` results is truthy, so the source does not
skip the key). -/
theorem c2_amended_unresolved_refs (lk : Lookup) (relName : String) :
    (∀ (kvs dkvs : Dict) (t i : JSON),
      lookupLast "data" kvs = some (.obj dkvs) →
      lookupLast "type" dkvs = some t →
      lookupLast "id" dkvs = some i →
      hashable t = true → hashable i = true →
      lookupGet lk (t, i) = none →
      relationshipEntries lk relName (.obj kvs) = .ok []) ∧
    (∀ (kvs : Dict) (items : List JSON),
      lookupLast "data" kvs = some (.arr items) →
      items ≠ [] →
      (∀ it ∈ items, ∃ ikvs t i, it = .obj ikvs ∧
        lookupLast "type" ikvs = some t ∧
        lookupLast "id" ikvs = some i ∧
        hashable t = true ∧ hashable i = true ∧
        lookupGet lk (t, i) = none) →
      relationshipEntries lk relName (.obj kvs) = .ok [(relName, .arr [])]) := by
  constructor
  · intro kvs dkvs t i hdata ht hi hht hhi hnone
    have hne : kvs.isEmpty = false := lookupLast_not_isEmpty _ _ _ hdata
    have hany : kvs.any (fun p => p.1 == "data") = true := lookupLast_any _ _ _ hdata
    have hdne : dkvs.isEmpty = false := lookupLast_not_isEmpty _ _ _ ht
    simp [relationshipEntries, resolve_relationship, JSON.truthy, hne, hany,
      pyContainsKey, pySubscript, hdata, hdne, ht, hi, lookupGetE, hht, hhi, hnone]
  · intro kvs items hdata hne hall
    have hkne : kvs.isEmpty = false := lookupLast_not_isEmpty _ _ _ hdata
    have hany : kvs.any (fun p => p.1 == "data") = true := lookupLast_any _ _ _ hdata
    have hine : items.isEmpty = false := by
      cases items with
      | nil => exact absurd rfl hne
      | cons a l => rfl
    have hmap : mapME (fun it =>
        match pySubscript it "type" with
        | .error e => .error e
        | .ok t =>
          match pySubscript it "id" with
          | .error e => .error e
          | .ok i => lookupGetE lk (t, i)) items =
        .ok (items.map (fun _ => none)) := by
      apply mapME_all_none
      intro it hit
      obtain ⟨ikvs, t, i, rfl, ht, hi, hht, hhi, hnone⟩ := hall it hit
      simp [pySubscript, ht, hi, lookupGetE, hht, hhi, hnone]
    have hfilter : (List.replicate items.length (none : Option Dict)).filter optDictTruthy = [] := by
      apply List.filter_eq_nil_iff.mpr
      intro a ha
      have ha' : a = none := List.eq_of_mem_replicate ha
      subst ha'
      simp [optDictTruthy]
    have hmne : (List.replicate items.length (none : Option Dict)).isEmpty = false := by
      cases items with
      | nil => exact absurd rfl hne
      | cons a l => rfl
    have hsub : pySubscript (.obj kvs) "data" = .ok (.arr items) := by
      simp [pySubscript, hdata]
    simp [relationshipEntries, resolve_relationship, JSON.truthy, hkne, hany,
      pyContainsKey, hsub, hine, hmap, Resolved.truthy, hmne,
      hfilter, mapME]

/-- Claim C2 witness: part one at a lookup containing only `("v","9")`
and a reference to the absent `("w","1")`; part two at the concrete
all-unresolved reference list of `c2Payload`. -/
theorem c2_amended_unresolved_refs_holds :
    relationshipEntries [((.str "v", .str "9"), [("type", .str "v"), ("id", .str "9")])]
      "vendor" (.obj [("data", .obj [("type", .str "w"), ("id", .str "1")])]) = .ok [] ∧
    relationshipEntries [] "tags"
      (.obj [("data", .arr [.obj [("type", .str "t"), ("id", .str "9")]])]) =
      .ok [("tags", .arr [])] := by
  constructor
  · exact (c2_amended_unresolved_refs _ "vendor").1
      [("data", .obj [("type", .str "w"), ("id", .str "1")])]
      [("type", .str "w"), ("id", .str "1")] (.str "w") (.str "1")
      rfl rfl rfl rfl rfl rfl
  · exact (c2_amended_unresolved_refs [] "tags").2
      [("data", .arr [.obj [("type", .str "t"), ("id", .str "9")]])]
      [.obj [("type", .str "t"), ("id", .str "9")]]
      rfl (by simp)
      (fun it hit => by
        simp only [List.mem_singleton] at hit
        exact ⟨[("type", .str "t"), ("id", .str "9")], .str "t", .str "9",
          hit, rfl, rfl, rfl, rfl, rfl⟩)

theorem flattenResource_keys (r d : Dict) (h : flattenResource r = .ok d) :
    hasKeyD d "id" = true ∧ hasKeyD d "type" = true := by
  simp only [flattenResource] at h
  cases h1 : getDictDefault r "attributes" with
  | error e => rw [h1] at h; cases h
  | ok attrs =>
    rw [h1] at h; dsimp only at h
    cases h2 : getKey r "id" with
    | error e => rw [h2] at h; cases h
    | ok idv =>
      rw [h2] at h; dsimp only at h
      cases h3 : getKey r "type" with
      | error e => rw [h3] at h; cases h
      | ok tyv =>
        rw [h3] at h
        cases h
        constructor
        · exact hasKeyD_of_mem _ _ idv
            (List.mem_append_right _ (List.mem_cons_self _ _))
        · exact hasKeyD_of_mem _ _ tyv
            (List.mem_append_right _ (List.mem_cons_of_mem _ (List.mem_cons_self _ _)))

theorem resolve_single_from_lookup (lk : Lookup) (v : JSON) (r : Dict)
    (h : resolve_relationship lk v = .ok (some (.single r))) :
    ∃ key, lookupGet lk key = some r := by
  simp only [resolve_relationship] at h
  by_cases htr : (!v.truthy) = true
  · rw [if_pos htr] at h; cases h
  · rw [if_neg htr] at h
    cases hc : pyContainsKey v "data" with
    | error e => rw [hc] at h; cases h
    | ok c =>
      rw [hc] at h; dsimp only at h
      by_cases hcc : (!c) = true
      · rw [if_pos hcc] at h; cases h
      · rw [if_neg hcc] at h
        cases hs : pySubscript v "data" with
        | error e => rw [hs] at h; cases h
        | ok relData =>
          rw [hs] at h; dsimp only at h
          by_cases hdt : (!relData.truthy) = true
          · rw [if_pos hdt] at h; cases h
          · rw [if_neg hdt] at h
            cases relData with
            | arr items =>
              dsimp only at h
              cases hm : mapME (fun it =>
                  match pySubscript it "type" with
                  | .error e => .error e
                  | .ok t =>
                    match pySubscript it "id" with
                    | .error e => .error e
                    | .ok i => lookupGetE lk (t, i)) items with
              | error e => rw [hm] at h; cases h
              | ok rs => rw [hm] at h; cases h
            | null => cases h
            | boolean b => cases h
            | num n => cases h
            | str s =>
              dsimp only at h
              cases h1 : pySubscript (JSON.str s) "type" with
              | error e => rw [h1] at h; cases h
              | ok t => rw [h1] at h; cases h
            | obj dkvs =>
              dsimp only at h
              cases h1 : pySubscript (JSON.obj dkvs) "type" with
              | error e => rw [h1] at h; cases h
              | ok t =>
                rw [h1] at h; dsimp only at h
                cases h2 : pySubscript (JSON.obj dkvs) "id" with
                | error e => rw [h2] at h; cases h
                | ok i =>
                  rw [h2] at h; dsimp only at h
                  cases h3 : lookupGetE lk (t, i) with
                  | error e => rw [h3] at h; cases h
                  | ok r0 =>
                    rw [h3] at h; dsimp only at h
                    cases r0 with
                    | none => cases h
                    | some d =>
                      simp only [Option.map_some'] at h
                      cases h
                      simp only [lookupGetE] at h3
                      by_cases hh : (hashable t && hashable i) = true
                      · rw [if_pos hh] at h3
                        injection h3 with h4
                        exact ⟨(t, i), h4⟩
                      · rw [if_neg hh] at h3; cases h3

theorem nestedEntry_cases (lk : Lookup) (rn nn : String) (nv : JSON)
    (es : List (String × JSON)) (h : nestedEntry lk rn nn nv = .ok es) :
    es = [] ∨ ∃ d r2, es = [(rn ++ "_" ++ nn, .obj d)] ∧
      flattenResource r2 = .ok d ∧
      resolve_relationship lk nv = .ok (some (.single r2)) := by
  simp only [nestedEntry] at h
  split at h
  · cases h
  · cases h
    exact Or.inl rfl
  next nr heq =>
    split at h
    next hcond =>
      cases h
      exact Or.inl rfl
    next hcond =>
      split at h
      next r2 =>
        cases hf : flattenResource r2 with
        | error e => rw [hf] at h; cases h
        | ok f2 =>
          rw [hf] at h
          cases h
          exact Or.inr ⟨f2, r2, rfl, hf, heq⟩
      next rs => cases h

theorem relationshipEntries_subrecords (lk : Lookup) (n : String) (v : JSON)
    (es : List (String × JSON)) (h : relationshipEntries lk n v = .ok es) :
    ∀ e ∈ es, subrecordOK e.2 = true := by
  simp only [relationshipEntries] at h
  split at h
  · cases h
  · cases h
    intro e he
    cases he
  next resolved heq =>
    split at h
    next hcond =>
      cases h
      intro e he
      cases he
    next hcond =>
      split at h
      next rs =>
        cases hm : mapME flattenResource
            ((rs.filter optDictTruthy).filterMap (fun o => o)) with
        | error e0 => rw [hm] at h; cases h
        | ok flats =>
          rw [hm] at h
          cases h
          intro e he
          have he' : e = (n, .arr (flats.map .obj)) := List.mem_singleton.mp he
          subst he'
          simp only [subrecordOK]
          apply List.all_eq_true.mpr
          intro x hx
          obtain ⟨d, hd, rfl⟩ := List.mem_map.mp hx
          obtain ⟨r', _, hfr⟩ := mapME_ok_mem_rev _ _ hm d hd
          obtain ⟨h1, h2⟩ := flattenResource_keys r' d hfr
          simp [h1, h2]
      next r =>
        cases hf : flattenResource r with
        | error e0 => rw [hf] at h; cases h
        | ok f =>
          rw [hf] at h; dsimp only at h
          cases hn : getDictDefault r "relationships" with
          | error e0 => rw [hn] at h; cases h
          | ok nrels =>
            rw [hn] at h; dsimp only at h
            cases hm : mapME (fun p => nestedEntry lk n p.1 p.2) (pyItems nrels) with
            | error e0 => rw [hm] at h; cases h
            | ok nlists =>
              rw [hm] at h
              cases h
              intro e he
              rcases List.mem_cons.mp he with rfl | he
              · obtain ⟨h1, h2⟩ := flattenResource_keys r f hf
                simp [subrecordOK, h1, h2]
              · obtain ⟨nl, hnl, henl⟩ := List.mem_flatten.mp he
                obtain ⟨p, _, hok⟩ := mapME_ok_mem_rev _ _ hm nl hnl
                rcases nestedEntry_cases lk n p.1 p.2 nl hok with rfl | ⟨d, r2, rfl, hfd, _⟩
                · cases henl
                · have he' : e = (n ++ "_" ++ p.1, .obj d) := List.mem_singleton.mp henl
                  subst he'
                  obtain ⟨h1, h2⟩ := flattenResource_keys r2 d hfd
                  simp [subrecordOK, h1, h2]

theorem process_shape (lk : Lookup) (item : JSON) (rec : Dict)
    (h : process_data_item lk item = .ok rec) :
    ∃ kvs idv tyv attrs links rels ents,
      item = .obj kvs ∧
      getKey kvs "id" = .ok idv ∧
      getKey kvs "type" = .ok tyv ∧
      getDictDefault kvs "attributes" = .ok attrs ∧
      getDictDefault kvs "links" = .ok links ∧
      getDictDefault kvs "relationships" = .ok rels ∧
      mapME (fun p => relationshipEntries lk p.1 p.2) (pyItems rels) = .ok ents ∧
      rec = ("id", idv) :: ("type", tyv) :: (attrs ++ links) ++ ents.flatten := by
  revert h
  cases item
  case obj kvs =>
    intro h
    simp only [process_data_item] at h
    cases h1 : getKey kvs "id" with
    | error e => rw [h1] at h; cases h
    | ok idv =>
      rw [h1] at h; dsimp only at h
      cases h2 : getKey kvs "type" with
      | error e => rw [h2] at h; cases h
      | ok tyv =>
        rw [h2] at h; dsimp only at h
        cases h3 : getDictDefault kvs "attributes" with
        | error e => rw [h3] at h; cases h
        | ok attrs =>
          rw [h3] at h; dsimp only at h
          cases h4 : getDictDefault kvs "links" with
          | error e => rw [h4] at h; cases h
          | ok links =>
            rw [h4] at h; dsimp only at h
            cases h5 : getDictDefault kvs "relationships" with
            | error e => rw [h5] at h; cases h
            | ok rels =>
              rw [h5] at h; dsimp only at h
              cases h6 : mapME (fun p => relationshipEntries lk p.1 p.2) (pyItems rels) with
              | error e => rw [h6] at h; cases h
              | ok ents =>
                rw [h6] at h
                cases h
                exact ⟨kvs, idv, tyv, attrs, links, rels, ents,
                  rfl, h1, h2, h3, h4, h5, h6, rfl⟩
  all_goals intro h; cases h

theorem denorm_inv (p : Dict) (recs : List Dict)
    (h : denormalize_response p = .ok recs) :
    ∃ includedItems lk dataVal dataItems,
      pyIter ((lookupLast "included" p).getD (.arr [])) = .ok includedItems ∧
      buildLookup includedItems = .ok lk ∧
      lookupLast "data" p = some dataVal ∧
      pyIter dataVal = .ok dataItems ∧
      mapME (process_data_item lk) dataItems = .ok recs := by
  simp only [denormalize_response] at h
  cases h1 : pyIter ((lookupLast "included" p).getD (.arr [])) with
  | error e => rw [h1] at h; cases h
  | ok includedItems =>
    rw [h1] at h; dsimp only at h
    cases h2 : buildLookup includedItems with
    | error e => rw [h2] at h; cases h
    | ok lk =>
      rw [h2] at h; dsimp only at h
      cases h3 : lookupLast "data" p with
      | none => rw [h3] at h; cases h
      | some dataVal =>
        rw [h3] at h; dsimp only at h
        cases h4 : pyIter dataVal with
        | error e => rw [h4] at h; cases h
        | ok dataItems =>
          rw [h4] at h; dsimp only at h
          exact ⟨_, _, _, _, rfl, h2, rfl, h4, h⟩

/-- Claim C9: every record returned by `denormalize_response` starts with
the seeded `id` and `type` entries (followed by attributes, then links,
then the relationship entries, so colliding attribute or link names
overwrite the seeds under last-binding-wins lookup while the keys stay
present), and every entry written by the relationship loop is a
flattened sub-record — a dict with `id` and `type` entries, or a list of
such dicts. -/
theorem c9_records_have_id_type :
    (∀ p recs, denormalize_response p = .ok recs →
      ∀ rec ∈ recs,
        (∃ idv tyv rest, rec = ("id", idv) :: ("type", tyv) :: rest) ∧
        hasKeyD rec "id" = true ∧ hasKeyD rec "type" = true) ∧
    (∀ lk n v es, relationshipEntries lk n v = .ok es →
      ∀ e ∈ es, subrecordOK e.2 = true) := by
  constructor
  · intro p recs h rec hrec
    obtain ⟨_, lk, _, dataItems, _, _, _, _, hmap⟩ := denorm_inv p recs h
    obtain ⟨item, _, hproc⟩ := mapME_ok_mem_rev _ _ hmap rec hrec
    obtain ⟨kvs, idv, tyv, attrs, links, rels, ents, _, _, _, _, _, _, _, hshape⟩ :=
      process_shape lk item rec hproc
    subst hshape
    refine ⟨⟨idv, tyv, (attrs ++ links) ++ ents.flatten, rfl⟩, ?_, ?_⟩
    · exact hasKeyD_of_mem _ _ idv (List.mem_cons_self _ _)
    · exact hasKeyD_of_mem _ _ tyv (List.mem_cons_of_mem _ (List.mem_cons_self _ _))
  · intro lk n v es h
    exact relationshipEntries_subrecords lk n v es h

/-- Claim C9 witness: evaluated on the worked example of the
specification — the single record seeds `id`/`type` and its `vendor`
sub-record carries `id` and `type`. -/
theorem c9_records_have_id_type_holds :
    hasKeyD [("id", .str "1"), ("type", .str "wo"), ("status", .str "Open"),
      ("vendor", .obj [("name", .str "Acme"), ("id", .str "9"), ("type", .str "v")])]
      "id" = true ∧
    hasKeyD [("id", .str "1"), ("type", .str "wo"), ("status", .str "Open"),
      ("vendor", .obj [("name", .str "Acme"), ("id", .str "9"), ("type", .str "v")])]
      "type" = true ∧
    subrecordOK (.obj [("name", .str "Acme"), ("id", .str "9"), ("type", .str "v")]) = true := by
  have hA := (c9_records_have_id_type.1 c1WfPayload
    [[("id", .str "1"), ("type", .str "wo"), ("status", .str "Open"),
      ("vendor", .obj [("name", .str "Acme"), ("id", .str "9"), ("type", .str "v")])]]
    rfl _ (List.mem_singleton.mpr rfl))
  have hB := c9_records_have_id_type.2
    [((.str "v", .str "9"),
      [("type", .str "v"), ("id", .str "9"), ("attributes", .obj [("name", .str "Acme")])])]
    "vendor" (.obj [("data", .obj [("type", .str "v"), ("id", .str "9")])])
    [("vendor", .obj [("name", .str "Acme"), ("id", .str "9"), ("type", .str "v")])]
    rfl
    ("vendor", .obj [("name", .str "Acme"), ("id", .str "9"), ("type", .str "v")])
    (List.mem_singleton.mpr rfl)
  exact ⟨hA.2.1, hA.2.2, hB⟩

/-- Claim C3 counterexample: in `c3Payload` the resource has the single
relationship `owner` (resolving to `p/1`, whose relationship `address`
resolves to `r/1`, street "r street") and also a relationship literally
named `owner_address` (resolving to `q/1`, street "q street").  The
claim requires the record key `owner_address` to hold the nested
target's attributes (street "r street"); the source's later dict write
for the `owner_address` relationship overwrites it with `q/1`'s
attributes. -/
theorem c3_counterexample :
    denormalize_response c3Payload = .ok [c3Record] ∧
    lookupLast "owner_address" c3Record =
      some (.obj [("street", .str "q street"), ("id", .str "1"), ("type", .str "q")]) ∧
    lookupLast "owner_address" c3Record ≠
      some (.obj [("street", .str "r street"), ("id", .str "1"), ("type", .str "r")]) := by
  refine ⟨rfl, rfl, ?_⟩
  intro hcontra
  have h1 : lookupLast "owner_address" c3Record =
      some (.obj [("street", .str "q street"), ("id", .str "1"), ("type", .str "q")]) := rfl
  rw [h1] at hcontra
  simp at hcontra

/-- Claim C3 (amended): for a resource with a single-valued relationship
R resolving to included resource T, and a relationship N of T resolving
(single-valued) to U, a successful `process_data_item` run gives a
record containing both the key R and the key `R_N`; the entries the R
relationship writes are exactly the flattening of T under R followed by
one entry per resolving nested relationship of T, each of which is the
one-step flattening of a resource taken directly from the included
lookup (so resolution never proceeds beyond this second level, and
reference cycles cannot recurse).  The VALUES at those keys are as the
original claim states them only as long as no later relationship entry
of the same resource writes the same key — dict assignment is
last-write-wins (see the counterexample). -/
theorem c3_amended_nested_flattening (lk : Lookup) (item : JSON)
    (kvs rels nrels : Dict) (relName nestedName : String)
    (relData nestedData : JSON) (T U fT fU rec : Dict)
    (hitem : item = .obj kvs)
    (hrels : lookupLast "relationships" kvs = some (.obj rels))
    (hmem : (relName, relData) ∈ pyItems rels)
    (hres : resolve_relationship lk relData = .ok (some (.single T)))
    (hTne : T.isEmpty = false)
    (hfT : flattenResource T = .ok fT)
    (hTrels : getDictDefault T "relationships" = .ok nrels)
    (hnmem : (nestedName, nestedData) ∈ pyItems nrels)
    (hnres : resolve_relationship lk nestedData = .ok (some (.single U)))
    (hUne : U.isEmpty = false)
    (hfU : flattenResource U = .ok fU)
    (hproc : process_data_item lk item = .ok rec) :
    hasKeyD rec relName = true ∧
    hasKeyD rec (relName ++ "_" ++ nestedName) = true ∧
    (∃ es nes, relationshipEntries lk relName relData = .ok es ∧
      es = (relName, .obj fT) :: nes ∧
      (relName ++ "_" ++ nestedName, .obj fU) ∈ nes ∧
      ∀ e ∈ nes, ∃ d r2, e.2 = .obj d ∧ flattenResource r2 = .ok d ∧
        ∃ key, lookupGet lk key = some r2) := by
  obtain ⟨kvs', idv, tyv, attrs, links, rels', ents, hkvs', hid, hty, hattrs, hlinks,
    hrels', hmapME, hshape⟩ := process_shape lk item rec hproc
  rw [hitem] at hkvs'
  injection hkvs' with hkvs'
  subst hkvs'
  have hrelseq : rels' = rels := by
    simp only [getDictDefault, hrels] at hrels'
    injection hrels' with h
    exact h.symm
  subst hrelseq
  obtain ⟨es, hesmem, heseq⟩ := mapME_ok_mem _ _ hmapME (relName, relData) hmem
  dsimp only at heseq
  have heskeep := heseq
  -- compute the entries of the R relationship
  have htr : (Resolved.single T).truthy = true := by
    simp [Resolved.truthy, hTne]
  simp only [relationshipEntries, hres, htr, Bool.not_true, Bool.false_eq_true,
    if_false, hfT, hTrels] at heseq
  cases hnl : mapME (fun p => nestedEntry lk relName p.1 p.2) (pyItems nrels) with
  | error e => rw [hnl] at heseq; cases heseq
  | ok nlists =>
    rw [hnl] at heseq
    dsimp only at heseq
    cases heseq
    -- the nested entry for N
    obtain ⟨nl, hnlmem, hnleq⟩ := mapME_ok_mem _ _ hnl (nestedName, nestedData) hnmem
    have hutr : (Resolved.single U).truthy = true := by
      simp [Resolved.truthy, hUne]
    simp only [nestedEntry, hnres, hutr, Bool.not_true, Bool.false_eq_true,
      if_false, hfU] at hnleq
    cases hnleq
    have hkeyT : (relName, JSON.obj fT) ∈ rec := by
      rw [hshape]
      refine List.mem_append_right _ (List.mem_flatten.mpr ⟨_, hesmem, ?_⟩)
      exact List.mem_cons_self _ _
    have hkeyU : (relName ++ "_" ++ nestedName, JSON.obj fU) ∈ rec := by
      rw [hshape]
      refine List.mem_append_right _ (List.mem_flatten.mpr ⟨_, hesmem, ?_⟩)
      refine List.mem_cons_of_mem _ (List.mem_flatten.mpr ⟨_, hnlmem, ?_⟩)
      exact List.mem_cons_self _ _
    refine ⟨hasKeyD_of_mem _ _ _ hkeyT, hasKeyD_of_mem _ _ _ hkeyU, ?_⟩
    refine ⟨_, nlists.flatten, heskeep, rfl, ?_, ?_⟩
    · exact List.mem_flatten.mpr ⟨_, hnlmem, List.mem_cons_self _ _⟩
    · intro e he
      obtain ⟨nl', hnl'mem, hemem⟩ := List.mem_flatten.mp he
      obtain ⟨p, _, hok⟩ := mapME_ok_mem_rev _ _ hnl nl' hnl'mem
      rcases nestedEntry_cases lk relName p.1 p.2 nl' hok with rfl | ⟨d, r2, rfl, hfd, hres2⟩
      · cases hemem
      · have he' : e = (relName ++ "_" ++ p.1, .obj d) := List.mem_singleton.mp hemem
        subst he'
        exact ⟨d, r2, rfl, hfd, resolve_single_from_lookup lk p.2 r2 hres2⟩

/-- Claim C3 witness: the `owner`/`address` scenario of the
specification, evaluated concretely: the record carries both `owner`
and `owner_address` as sibling top-level keys. -/
theorem c3_amended_nested_flattening_holds :
    hasKeyD [("id", .str "1"), ("type", .str "a"),
      ("owner", .obj [("id", .str "1"), ("type", .str "p")]),
      ("owner_address", .obj [("street", .str "r street"), ("id", .str "1"), ("type", .str "r")])]
      "owner" = true ∧
    hasKeyD [("id", .str "1"), ("type", .str "a"),
      ("owner", .obj [("id", .str "1"), ("type", .str "p")]),
      ("owner_address", .obj [("street", .str "r street"), ("id", .str "1"), ("type", .str "r")])]
      ("owner" ++ "_" ++ "address") = true := by
  have h := c3_amended_nested_flattening c3wLookup (.obj c3wItem) c3wItem
    [("owner", c3wRelData)] [("address", c3wNestedData)] "owner" "address"
    c3wRelData c3wNestedData c3wOwner c3wAddress
    [("id", .str "1"), ("type", .str "p")]
    [("street", .str "r street"), ("id", .str "1"), ("type", .str "r")]
    [("id", .str "1"), ("type", .str "a"),
      ("owner", .obj [("id", .str "1"), ("type", .str "p")]),
      ("owner_address", .obj [("street", .str "r street"), ("id", .str "1"), ("type", .str "r")])]
    rfl rfl (List.mem_singleton.mpr rfl) rfl rfl rfl rfl
    (List.mem_singleton.mpr rfl) rfl rfl rfl rfl
  exact ⟨h.1, h.2.1⟩

theorem wf_id (b : Bool) (kvs : Dict) (h : wfResourceObj b kvs = true) :
    ∃ i, lookupLast "id" kvs = some i ∧ hashable i = true := by
  simp only [wfResourceObj, Bool.and_eq_true] at h
  obtain ⟨⟨⟨⟨h1, _⟩, _⟩, _⟩, _⟩ := h
  cases hl : lookupLast "id" kvs with
  | none => rw [hl] at h1; cases h1
  | some i => rw [hl] at h1; exact ⟨i, rfl, h1⟩

theorem wf_type (b : Bool) (kvs : Dict) (h : wfResourceObj b kvs = true) :
    ∃ t, lookupLast "type" kvs = some t ∧ hashable t = true := by
  simp only [wfResourceObj, Bool.and_eq_true] at h
  obtain ⟨⟨⟨⟨_, h2⟩, _⟩, _⟩, _⟩ := h
  cases hl : lookupLast "type" kvs with
  | none => rw [hl] at h2; cases h2
  | some t => rw [hl] at h2; exact ⟨t, rfl, h2⟩

theorem wf_attrs (b : Bool) (kvs : Dict) (h : wfResourceObj b kvs = true) :
    ∃ attrs, getDictDefault kvs "attributes" = .ok attrs := by
  simp only [wfResourceObj, Bool.and_eq_true] at h
  obtain ⟨⟨⟨_, h3⟩, _⟩, _⟩ := h
  cases hl : lookupLast "attributes" kvs with
  | none => exact ⟨[], by simp [getDictDefault, hl]⟩
  | some v =>
    rw [hl] at h3
    cases v with
    | obj d => exact ⟨d, by simp [getDictDefault, hl]⟩
    | null => cases h3
    | boolean x => cases h3
    | num x => cases h3
    | str x => cases h3
    | arr x => cases h3

theorem wf_links (b : Bool) (kvs : Dict) (h : wfResourceObj b kvs = true) :
    ∃ links, getDictDefault kvs "links" = .ok links := by
  simp only [wfResourceObj, Bool.and_eq_true] at h
  obtain ⟨⟨_, h4⟩, _⟩ := h
  cases hl : lookupLast "links" kvs with
  | none => exact ⟨[], by simp [getDictDefault, hl]⟩
  | some v =>
    rw [hl] at h4
    cases v with
    | obj d => exact ⟨d, by simp [getDictDefault, hl]⟩
    | null => cases h4
    | boolean x => cases h4
    | num x => cases h4
    | str x => cases h4
    | arr x => cases h4

theorem wf_rels (b : Bool) (kvs : Dict) (h : wfResourceObj b kvs = true) :
    ∃ rels, getDictDefault kvs "relationships" = .ok rels ∧
      ∀ p ∈ rels, wfRelValue p.2 = true ∧ (b = true → relDataNotList p.2 = true) := by
  simp only [wfResourceObj, Bool.and_eq_true] at h
  obtain ⟨_, h5⟩ := h
  cases hl : lookupLast "relationships" kvs with
  | none =>
    exact ⟨[], by simp [getDictDefault, hl], fun p hp => absurd hp (List.not_mem_nil p)⟩
  | some v =>
    rw [hl] at h5
    cases v with
    | obj rels =>
      refine ⟨rels, by simp [getDictDefault, hl], ?_⟩
      intro p hp
      have hp' := List.all_eq_true.mp h5 p hp
      rw [Bool.and_eq_true] at hp'
      obtain ⟨hw, hbl⟩ := hp'
      refine ⟨hw, ?_⟩
      intro hb
      rw [hb] at hbl
      simpa using hbl
    | null => cases h5
    | boolean x => cases h5
    | num x => cases h5
    | str x => cases h5
    | arr x => cases h5

theorem wfLookup_get (lk : Lookup) (h : wfLookup lk) (key : JSON × JSON) (r : Dict)
    (hg : lookupGet lk key = some r) : wfResourceObj true r = true := by
  obtain ⟨k, hk⟩ := lookupGet_mem lk key r hg
  exact h (k, r) hk

theorem flattenResource_ok (b : Bool) (kvs : Dict) (h : wfResourceObj b kvs = true) :
    ∃ d, flattenResource kvs = .ok d := by
  obtain ⟨attrs, hattrs⟩ := wf_attrs b kvs h
  obtain ⟨i, hi, _⟩ := wf_id b kvs h
  obtain ⟨t, ht, _⟩ := wf_type b kvs h
  exact ⟨attrs ++ [("id", i), ("type", t)],
    by simp [flattenResource, hattrs, getKey, hi, ht]⟩

theorem resolve_many_from_lookup (lk : Lookup) (v : JSON) (rs : List (Option Dict))
    (h : resolve_relationship lk v = .ok (some (.many rs))) :
    ∀ x ∈ rs, ∀ d, x = some d → ∃ key, lookupGet lk key = some d := by
  simp only [resolve_relationship] at h
  by_cases htr : (!v.truthy) = true
  · rw [if_pos htr] at h; cases h
  · rw [if_neg htr] at h
    cases hc : pyContainsKey v "data" with
    | error e => rw [hc] at h; cases h
    | ok c =>
      rw [hc] at h; dsimp only at h
      by_cases hcc : (!c) = true
      · rw [if_pos hcc] at h; cases h
      · rw [if_neg hcc] at h
        cases hs : pySubscript v "data" with
        | error e => rw [hs] at h; cases h
        | ok relData =>
          rw [hs] at h; dsimp only at h
          by_cases hdt : (!relData.truthy) = true
          · rw [if_pos hdt] at h; cases h
          · rw [if_neg hdt] at h
            cases relData with
            | arr items =>
              dsimp only at h
              cases hm : mapME (fun it =>
                  match pySubscript it "type" with
                  | .error e => .error e
                  | .ok t =>
                    match pySubscript it "id" with
                    | .error e => .error e
                    | .ok i => lookupGetE lk (t, i)) items with
              | error e => rw [hm] at h; cases h
              | ok rs' =>
                rw [hm] at h
                cases h
                intro x hx d hxd
                obtain ⟨it, _, hit⟩ := mapME_ok_mem_rev _ _ hm x hx
                cases h1 : pySubscript it "type" with
                | error e => rw [h1] at hit; cases hit
                | ok t =>
                  rw [h1] at hit; dsimp only at hit
                  cases h2 : pySubscript it "id" with
                  | error e => rw [h2] at hit; cases hit
                  | ok i =>
                    rw [h2] at hit; dsimp only at hit
                    simp only [lookupGetE] at hit
                    by_cases hh : (hashable t && hashable i) = true
                    · rw [if_pos hh] at hit
                      injection hit with hit'
                      exact ⟨(t, i), by rw [hit', hxd]⟩
                    · rw [if_neg hh] at hit; cases hit
            | null => cases h
            | boolean b => cases h
            | num n => cases h
            | str s =>
              dsimp only at h
              cases h1 : pySubscript (JSON.str s) "type" with
              | error e => rw [h1] at h; cases h
              | ok t => rw [h1] at h; cases h
            | obj dkvs =>
              dsimp only at h
              cases h1 : pySubscript (JSON.obj dkvs) "type" with
              | error e => rw [h1] at h; cases h
              | ok t =>
                rw [h1] at h; dsimp only at h
                cases h2 : pySubscript (JSON.obj dkvs) "id" with
                | error e => rw [h2] at h; cases h
                | ok i =>
                  rw [h2] at h; dsimp only at h
                  cases h3 : lookupGetE lk (t, i) with
                  | error e => rw [h3] at h; cases h
                  | ok r0 =>
                    rw [h3] at h; dsimp only at h
                    cases r0 with
                    | none => cases h
                    | some d => simp only [Option.map_some'] at h; cases h

theorem resolve_not_many (lk : Lookup) (v : JSON) (rs : List (Option Dict))
    (hnl : relDataNotList v = true)
    (h : resolve_relationship lk v = .ok (some (.many rs))) : False := by
  simp only [resolve_relationship] at h
  by_cases htr : (!v.truthy) = true
  · rw [if_pos htr] at h; cases h
  · rw [if_neg htr] at h
    cases hc : pyContainsKey v "data" with
    | error e => rw [hc] at h; cases h
    | ok c =>
      rw [hc] at h; dsimp only at h
      by_cases hcc : (!c) = true
      · rw [if_pos hcc] at h; cases h
      · rw [if_neg hcc] at h
        cases hs : pySubscript v "data" with
        | error e => rw [hs] at h; cases h
        | ok relData =>
          rw [hs] at h; dsimp only at h
          by_cases hdt : (!relData.truthy) = true
          · rw [if_pos hdt] at h; cases h
          · rw [if_neg hdt] at h
            cases relData with
            | arr items =>
              -- pySubscript ok forces v to be a dict with data ↦ arr items;
              -- relDataNotList then forces items = [], contradicting truthiness
              cases v with
              | obj kvs =>
                simp only [pySubscript] at hs
                cases hlv : lookupLast "data" kvs with
                | none => rw [hlv] at hs; cases hs
                | some w =>
                  rw [hlv] at hs
                  injection hs with hs'
                  subst hs'
                  simp only [relDataNotList, hlv] at hnl
                  cases items with
                  | nil => simp [JSON.truthy] at hdt
                  | cons a l => cases hnl
              | null => exact absurd hs (by simp [pySubscript])
              | boolean x => exact absurd hs (by simp [pySubscript])
              | num x => exact absurd hs (by simp [pySubscript])
              | str x => exact absurd hs (by simp [pySubscript])
              | arr x => exact absurd hs (by simp [pySubscript])
            | null => cases h
            | boolean b => cases h
            | num n => cases h
            | str s =>
              dsimp only at h
              cases h1 : pySubscript (JSON.str s) "type" with
              | error e => rw [h1] at h; cases h
              | ok t => rw [h1] at h; cases h
            | obj dkvs =>
              dsimp only at h
              cases h1 : pySubscript (JSON.obj dkvs) "type" with
              | error e => rw [h1] at h; cases h
              | ok t =>
                rw [h1] at h; dsimp only at h
                cases h2 : pySubscript (JSON.obj dkvs) "id" with
                | error e => rw [h2] at h; cases h
                | ok i =>
                  rw [h2] at h; dsimp only at h
                  cases h3 : lookupGetE lk (t, i) with
                  | error e => rw [h3] at h; cases h
                  | ok r0 =>
                    rw [h3] at h; dsimp only at h
                    cases r0 with
                    | none => cases h
                    | some d => simp only [Option.map_some'] at h; cases h

theorem wfRef_fields (j : JSON) (h : wfRef j = true) :
    ∃ kvs t i, j = .obj kvs ∧ lookupLast "type" kvs = some t ∧
      lookupLast "id" kvs = some i ∧ hashable t = true ∧ hashable i = true := by
  cases j with
  | obj kvs =>
    simp only [wfRef, Bool.and_eq_true] at h
    obtain ⟨h1, h2⟩ := h
    cases ht : lookupLast "type" kvs with
    | none => rw [ht] at h1; cases h1
    | some t =>
      rw [ht] at h1
      cases hi : lookupLast "id" kvs with
      | none => rw [hi] at h2; cases h2
      | some i =>
        rw [hi] at h2
        exact ⟨kvs, t, i, rfl, ht, hi, h1, h2⟩
  | null => cases h
  | boolean b => cases h
  | num n => cases h
  | str s => cases h
  | arr xs => cases h

theorem resolve_ok_of_wf (lk : Lookup) (v : JSON) (hwf : wfRelValue v = true) :
    ∃ o, resolve_relationship lk v = .ok o := by
  cases v with
  | null => exact ⟨none, by simp [resolve_relationship, JSON.truthy]⟩
  | boolean b =>
    have hb : b = false := by simpa [wfRelValue, JSON.truthy] using hwf
    subst hb
    exact ⟨none, by simp [resolve_relationship, JSON.truthy]⟩
  | num n =>
    have hn : n = 0 := by simpa [wfRelValue, JSON.truthy] using hwf
    subst hn
    exact ⟨none, by simp [resolve_relationship, JSON.truthy]⟩
  | str s =>
    have hs : s = "" := by simpa [wfRelValue, JSON.truthy] using hwf
    subst hs
    exact ⟨none, by simp [resolve_relationship, JSON.truthy]⟩
  | arr xs =>
    have hx : xs.isEmpty = true := by simpa [wfRelValue, JSON.truthy] using hwf
    exact ⟨none, by simp [resolve_relationship, JSON.truthy, hx]⟩
  | obj kvs =>
    cases hl : lookupLast "data" kvs with
    | none =>
      by_cases hke : kvs.isEmpty = true
      · exact ⟨none, by simp [resolve_relationship, JSON.truthy, hke]⟩
      · have hkne : kvs.isEmpty = false := by simpa using hke
        have hany : kvs.any (fun p => p.1 == "data") = false := by
          rcases Bool.eq_false_or_eq_true (kvs.any (fun p => p.1 == "data")) with hT | hF
          · obtain ⟨q, hq, hqk⟩ := List.any_eq_true.mp hT
            obtain ⟨k0, v0⟩ := q
            have hk0 : k0 = "data" := eq_of_beq hqk
            subst hk0
            have := hasKeyD_of_mem kvs "data" v0 hq
            unfold hasKeyD at this
            rw [hl] at this
            cases this
          · exact hF
        exact ⟨none, by simp [resolve_relationship, JSON.truthy, hkne, pyContainsKey, hany]⟩
    | some d =>
      have hkne : kvs.isEmpty = false := lookupLast_not_isEmpty _ _ _ hl
      have hany := lookupLast_any _ _ _ hl
      have hsub : pySubscript (.obj kvs) "data" = .ok d := by simp [pySubscript, hl]
      have htv : (!(JSON.obj kvs).truthy) = false := by simp [JSON.truthy, hkne]
      have hcont : pyContainsKey (JSON.obj kvs) "data" = .ok true := by
        simp [pyContainsKey, hany]
      rcases Bool.eq_false_or_eq_true (!d.truthy) with hdt | hdt
      · -- hdt says the data value is falsy: resolve returns none
        exact ⟨none, by simp [resolve_relationship, htv, hcont, hsub, hdt]⟩
      · -- truthy data
        cases d with
        | arr items =>
          have hall : items.all wfRef = true := by
            simpa [wfRelValue, hl, hdt] using hwf
          obtain ⟨rs, hrs⟩ : ∃ rs, mapME (fun it =>
              match pySubscript it "type" with
              | .error e => .error e
              | .ok t =>
                match pySubscript it "id" with
                | .error e => .error e
                | .ok i => lookupGetE lk (t, i)) items = .ok rs := by
            apply mapME_ok_of_forall
            intro it hit
            obtain ⟨ikvs, t, i, rfl, ht, hi, hht, hhi⟩ :=
              wfRef_fields it (List.all_eq_true.mp hall it hit)
            exact ⟨lookupGet lk (t, i),
              by simp [pySubscript, ht, hi, lookupGetE, hht, hhi]⟩
          exact ⟨some (.many rs), by
            simp [resolve_relationship, htv, hcont, hsub, hdt, hrs]⟩
        | obj dkvs =>
          have hrf : wfRef (JSON.obj dkvs) = true := by
            simpa [wfRelValue, hl, hdt] using hwf
          obtain ⟨dkvs', t, i, heq, ht, hi, hht, hhi⟩ := wfRef_fields _ hrf
          injection heq with heq
          subst heq
          have hst : pySubscript (JSON.obj dkvs) "type" = .ok t := by
            simp [pySubscript, ht]
          have hsi : pySubscript (JSON.obj dkvs) "id" = .ok i := by
            simp [pySubscript, hi]
          have hge : lookupGetE lk (t, i) = .ok (lookupGet lk (t, i)) := by
            simp [lookupGetE, hht, hhi]
          exact ⟨(lookupGet lk (t, i)).map .single, by
            simp [resolve_relationship, htv, hcont, hsub, hdt, hst, hsi, hge]⟩
        | null => simp [JSON.truthy] at hdt
        | boolean b =>
          have hrf : wfRef (JSON.boolean b) = true := by
            simpa [wfRelValue, hl, hdt] using hwf
          cases hrf
        | num n =>
          have hrf : wfRef (JSON.num n) = true := by
            simpa [wfRelValue, hl, hdt] using hwf
          cases hrf
        | str s =>
          have hrf : wfRef (JSON.str s) = true := by
            simpa [wfRelValue, hl, hdt] using hwf
          cases hrf

theorem nestedEntry_ok (lk : Lookup) (rn nn : String) (nv : JSON)
    (hwf : wfRelValue nv = true) (hnl : relDataNotList nv = true)
    (hlk : wfLookup lk) : ∃ es, nestedEntry lk rn nn nv = .ok es := by
  obtain ⟨o, ho⟩ := resolve_ok_of_wf lk nv hwf
  cases o with
  | none => exact ⟨[], by simp [nestedEntry, ho]⟩
  | some nr =>
    cases nr with
    | many rs => exact (resolve_not_many lk nv rs hnl ho).elim
    | single r2 =>
      by_cases htr : (!(Resolved.single r2).truthy) = true
      · exact ⟨[], by simp [nestedEntry, ho, htr]⟩
      · have htr' : (!(Resolved.single r2).truthy) = false := by simpa using htr
        obtain ⟨key, hkey⟩ := resolve_single_from_lookup lk nv r2 ho
        obtain ⟨f2, hf2⟩ := flattenResource_ok true r2 (wfLookup_get lk hlk key r2 hkey)
        exact ⟨[(rn ++ "_" ++ nn, .obj f2)], by simp [nestedEntry, ho, htr', hf2]⟩

theorem relationshipEntries_ok (lk : Lookup) (n : String) (v : JSON)
    (hwf : wfRelValue v = true) (hlk : wfLookup lk) :
    ∃ es, relationshipEntries lk n v = .ok es := by
  obtain ⟨o, ho⟩ := resolve_ok_of_wf lk v hwf
  cases o with
  | none => exact ⟨[], by simp [relationshipEntries, ho]⟩
  | some resolved =>
    by_cases htr : (!resolved.truthy) = true
    · exact ⟨[], by simp [relationshipEntries, ho, htr]⟩
    · have htr' : (!resolved.truthy) = false := by simpa using htr
      cases resolved with
      | many rs =>
        obtain ⟨flats, hflats⟩ : ∃ flats, mapME flattenResource
            ((rs.filter optDictTruthy).filterMap (fun o => o)) = .ok flats := by
          apply mapME_ok_of_forall
          intro d hd
          have hsome : some d ∈ rs := by
            obtain ⟨x, hx, hxd⟩ := List.mem_filterMap.mp hd
            have hx' : x ∈ rs := List.mem_of_mem_filter hx
            rw [show x = some d from hxd] at hx'
            exact hx'
          obtain ⟨key, hkey⟩ := resolve_many_from_lookup lk v rs ho (some d) hsome d rfl
          exact flattenResource_ok true d (wfLookup_get lk hlk key d hkey)
        exact ⟨[(n, .arr (flats.map .obj))], by
          simp [relationshipEntries, ho, htr', hflats]⟩
      | single r =>
        obtain ⟨key, hkey⟩ := resolve_single_from_lookup lk v r ho
        have hwfr := wfLookup_get lk hlk key r hkey
        obtain ⟨f, hf⟩ := flattenResource_ok true r hwfr
        obtain ⟨nrels, hnrels, hnwf⟩ := wf_rels true r hwfr
        obtain ⟨nlists, hnl⟩ : ∃ nlists, mapME (fun p => nestedEntry lk n p.1 p.2)
            (pyItems nrels) = .ok nlists := by
          apply mapME_ok_of_forall
          intro q hq
          obtain ⟨k2, v2⟩ := q
          have hw := hnwf (k2, v2) (pyItems_mem _ _ _ hq)
          exact nestedEntry_ok lk n k2 v2 hw.1 (hw.2 rfl) hlk
        exact ⟨(n, .obj f) :: nlists.flatten, by
          simp [relationshipEntries, ho, htr', hf, hnrels, hnl]⟩

theorem process_ok (lk : Lookup) (item : JSON) (hwf : wfResource false item = true)
    (hlk : wfLookup lk) : ∃ rec, process_data_item lk item = .ok rec := by
  cases item with
  | obj kvs =>
    have hw : wfResourceObj false kvs = true := hwf
    obtain ⟨i, hi, _⟩ := wf_id false kvs hw
    obtain ⟨t, ht, _⟩ := wf_type false kvs hw
    obtain ⟨attrs, hattrs⟩ := wf_attrs false kvs hw
    obtain ⟨links, hlinks⟩ := wf_links false kvs hw
    obtain ⟨rels, hrels, hrwf⟩ := wf_rels false kvs hw
    obtain ⟨ents, hents⟩ : ∃ ents, mapME (fun p => relationshipEntries lk p.1 p.2)
        (pyItems rels) = .ok ents := by
      apply mapME_ok_of_forall
      intro q hq
      obtain ⟨k2, v2⟩ := q
      exact relationshipEntries_ok lk k2 v2 (hrwf (k2, v2) (pyItems_mem _ _ _ hq)).1 hlk
    exact ⟨("id", i) :: ("type", t) :: (attrs ++ links) ++ ents.flatten,
      by simp [process_data_item, getKey, hi, ht, hattrs, hlinks, hrels, hents]⟩
  | null => cases hwf
  | boolean b => cases hwf
  | num n => cases hwf
  | str s => cases hwf
  | arr xs => cases hwf

theorem buildLookup_ok : ∀ items : List JSON,
    (∀ it ∈ items, wfResource true it = true) →
    ∃ lk, buildLookup items = .ok lk ∧ wfLookup lk := by
  intro items
  induction items with
  | nil => exact fun _ => ⟨[], rfl, fun e he => absurd he (List.not_mem_nil e)⟩
  | cons it rest ih =>
    intro h
    have hit := h it (List.mem_cons_self _ _)
    obtain ⟨lk', hlk', hwlk'⟩ := ih (fun a ha => h a (List.mem_cons_of_mem _ ha))
    cases it with
    | obj kvs =>
      have hw : wfResourceObj true kvs = true := hit
      obtain ⟨i, hi, hhi⟩ := wf_id true kvs hw
      obtain ⟨t, ht, hht⟩ := wf_type true kvs hw
      refine ⟨((t, i), kvs) :: lk', ?_, ?_⟩
      · simp [buildLookup, getKey, ht, hi, hht, hhi, hlk']
      · intro e he
        rcases List.mem_cons.mp he with rfl | he
        · exact hw
        · exact hwlk' e he
    | null => cases hit
    | boolean b => cases hit
    | num n => cases hit
    | str s => cases hit
    | arr xs => cases hit

/-- Claim C1 counterexample: in `c1Payload` every resource in `data` has
`type` and `id` (indeed the data items satisfy the full resource
well-formedness predicate), yet `denormalize_response` raises instead of
returning one record per entry: the included resource `o/1`, resolved in
single position, has a non-empty list-valued relationship, and the
source calls `.get` on the resulting list (an AttributeError). -/
theorem c1_counterexample :
    lookupLast "data" c1Payload =
      some (.arr [.obj [("type", .str "a"), ("id", .str "1"),
        ("relationships", .obj [("owner", .obj [("data",
          .obj [("type", .str "o"), ("id", .str "1")])])])]]) ∧
    ([JSON.obj [("type", .str "a"), ("id", .str "1"),
        ("relationships", .obj [("owner", .obj [("data",
          .obj [("type", .str "o"), ("id", .str "1")])])])]].all (wfResource false)) = true ∧
    denormalize_response c1Payload =
      .error "AttributeError: list object has no attribute get" := by
  exact ⟨rfl, rfl, rfl⟩

/-- Claim C1 (amended): for every payload whose `data` AND `included`
entries are fully well-formed resources (dicts with hashable `type` and
`id`, mapping-valued `attributes`/`links`/`relationships`, relationship
`data` null, a reference, or a list of references, and no included
resource carrying a non-empty list-valued relationship),
`denormalize_response` succeeds and returns exactly one record per entry
of `data`, in the same order: the i-th record is `process_data_item` of
the i-th data entry against the included lookup. -/
theorem c1_amended_wellformed_success (p : Dict) (ds : List JSON)
    (hwf : wfPayload p = true)
    (hd : lookupLast "data" p = some (.arr ds)) :
    ∃ includedItems lk recs,
      pyIter ((lookupLast "included" p).getD (.arr [])) = .ok includedItems ∧
      buildLookup includedItems = .ok lk ∧
      denormalize_response p = .ok recs ∧
      recs.length = ds.length ∧
      ∀ i (h1 : i < ds.length) (h2 : i < recs.length),
        process_data_item lk (ds.get ⟨i, h1⟩) = .ok (recs.get ⟨i, h2⟩) := by
  simp only [wfPayload, Bool.and_eq_true] at hwf
  obtain ⟨hinc, hdata⟩ := hwf
  rw [hd] at hdata
  have hdall : ds.all (wfResource false) = true := hdata
  obtain ⟨includedItems, hii, hiwf⟩ : ∃ includedItems,
      pyIter ((lookupLast "included" p).getD (.arr [])) = .ok includedItems ∧
      ∀ it ∈ includedItems, wfResource true it = true := by
    cases hi : lookupLast "included" p with
    | none => exact ⟨[], rfl, fun it hit => absurd hit (List.not_mem_nil it)⟩
    | some v =>
      rw [hi] at hinc
      cases v with
      | arr items =>
        have hall : items.all (wfResource true) = true := hinc
        exact ⟨items, rfl, fun it hit => List.all_eq_true.mp hall it hit⟩
      | null => cases hinc
      | boolean b => cases hinc
      | num n => cases hinc
      | str s => cases hinc
      | obj kvs => cases hinc
  obtain ⟨lk, hlk, hwlk⟩ := buildLookup_ok includedItems hiwf
  obtain ⟨recs, hrecs⟩ : ∃ recs, mapME (process_data_item lk) ds = .ok recs :=
    mapME_ok_of_forall ds
      (fun d hd0 => process_ok lk d (List.all_eq_true.mp hdall d hd0) hwlk)
  refine ⟨includedItems, lk, recs, hii, hlk, ?_, mapME_ok_length _ _ hrecs,
    fun i h1 h2 => mapME_ok_get _ _ hrecs i h1 h2⟩
  have hpd : pyIter (JSON.arr ds) = .ok ds := rfl
  simp only [denormalize_response, hii, hlk, hd, hpd, hrecs]

/-- Claim C1 witness: the worked example of the specification is fully
well-formed; the call succeeds with exactly one record, matching
`process_data_item` of the single data entry. -/
theorem c1_amended_wellformed_success_holds :
    ∃ includedItems lk recs,
      pyIter ((lookupLast "included" c1WfPayload).getD (.arr [])) = .ok includedItems ∧
      buildLookup includedItems = .ok lk ∧
      denormalize_response c1WfPayload = .ok recs ∧
      recs.length = ([JSON.obj [("type", .str "wo"), ("id", .str "1"),
        ("attributes", .obj [("status", .str "Open")]),
        ("relationships", .obj [("vendor", .obj [("data",
          .obj [("type", .str "v"), ("id", .str "9")])])])]] : List JSON).length ∧
      ∀ i (h1 : i < ([JSON.obj [("type", .str "wo"), ("id", .str "1"),
        ("attributes", .obj [("status", .str "Open")]),
        ("relationships", .obj [("vendor", .obj [("data",
          .obj [("type", .str "v"), ("id", .str "9")])])])]] : List JSON).length)
        (h2 : i < recs.length),
        process_data_item lk (([JSON.obj [("type", .str "wo"), ("id", .str "1"),
          ("attributes", .obj [("status", .str "Open")]),
          ("relationships", .obj [("vendor", .obj [("data",
            .obj [("type", .str "v"), ("id", .str "9")])])])]] : List JSON).get ⟨i, h1⟩) =
          .ok (recs.get ⟨i, h2⟩) :=
  c1_amended_wellformed_success c1WfPayload
    [JSON.obj [("type", .str "wo"), ("id", .str "1"),
      ("attributes", .obj [("status", .str "Open")]),
      ("relationships", .obj [("vendor", .obj [("data",
        .obj [("type", .str "v"), ("id", .str "9")])])])]]
    rfl rfl
